import Mathlib

/-!
Shallow embedding of the task-allocation core of the mytaskpoint backend
(NestJS/TypeScript), together with theorems settling the frozen claims.

Conventions of the embedding:
* JavaScript numbers holding coordinates are modelled as `ℚ` (the stored
  data is exact decimal input); numbers produced by trigonometric
  computation (distances, scores) are modelled as `ℝ`.
* JavaScript `Map` objects keyed by grid-key strings `"a,b"` are modelled
  as association lists keyed by the pair `(a, b) : ℤ × ℤ`; the string
  encoding is injective on integer pairs, so nothing is lost.
* `null`/`undefined` is modelled by `Option`; JavaScript truthiness of a
  numeric field (`if (worker.lat)`) is `Option.isSome` plus `≠ 0`.
* Timestamps (`Date.now()`) are `ℕ` parameters threaded explicitly.
-/

/-- Prisma `TaskStatus` enum (prisma/schema.prisma). -/
inductive TaskStatus where
  | unassigned
  | assigned
  | accepted
  | rejected
  | completed
deriving DecidableEq, Repr

/-- Mirrors `TaskReallocationConfig` from src/config/task-reallocation.config.ts.
The TS `allowedStatuses` object maps each status key to a boolean; the
`canReallocateTask` guard checks the key for `undefined`, so the lookup is
modelled as `Option Bool`.  `errorMessages` is a string-keyed record with a
`'default'` entry, modelled as a per-status `Option String` plus the default. -/
structure TaskReallocationConfig where
  allowedStatuses : TaskStatus → Option Bool
  defaultAllowReallocation : Bool
  errorMessages : TaskStatus → Option String
  defaultErrorMessage : Option String

/-- Mirrors `defaultTaskReallocationConfig` (task-reallocation.config.ts,
lines 31-48): `unassigned`, `assigned`, `accepted`, `rejected` map to `true`;
`completed` maps to `false`. -/
def defaultTaskReallocationConfig : TaskReallocationConfig where
  allowedStatuses := fun s =>
    match s with
    | .unassigned => some true
    | .assigned => some true
    | .accepted => some true
    | .rejected => some true
    | .completed => some false
  defaultAllowReallocation := false
  errorMessages := fun s =>
    match s with
    | .unassigned => some "Unassigned tasks cannot be reallocated"
    | .assigned => some "Assigned tasks cannot be reallocated"
    | .accepted => some "Accepted tasks cannot be reallocated"
    | .rejected => some "Rejected tasks cannot be reallocated"
    | .completed => some "Completed tasks cannot be reallocated"
  defaultErrorMessage := some "Task reallocation is not allowed for this status"

/-- Mirrors `canReallocateTask` (task-reallocation.config.ts, lines 76-85):
if `config.allowedStatuses[status] !== undefined` return it, else the
default flag. -/
def canReallocateTask (status : TaskStatus) (config : TaskReallocationConfig) : Bool :=
  match config.allowedStatuses status with
  | some b => b
  | none => config.defaultAllowReallocation

/-- Mirrors `getReallocationErrorMessage` (task-reallocation.config.ts):
`msg ?? config.errorMessages['default'] ?? 'Task reallocation is not allowed
for this status'`. -/
def getReallocationErrorMessage (status : TaskStatus) (config : TaskReallocationConfig) :
    String :=
  (((config.errorMessages status).orElse fun _ => config.defaultErrorMessage).getD
    "Task reallocation is not allowed for this status")

/-! ## Circuit breaker (security-headers.guard.ts, RedisCacheService, lines 836-897) -/

/-- The three circuit-breaker states. -/
inductive CBState where
  | CLOSED
  | OPEN
  | HALF_OPEN
deriving DecidableEq, Repr

/-- Mirrors the `circuitBreaker` record: mutable fields `failures`,
`lastFailure`, `state` (threshold and timeout are the constants below). -/
structure CircuitBreaker where
  failures : ℕ
  lastFailure : ℕ
  state : CBState
deriving DecidableEq, Repr

/-- `failureThreshold: 5`. -/
def failureThreshold : ℕ := 5

/-- `recoveryTimeout: 60000` (milliseconds). -/
def recoveryTimeout : ℕ := 60000

/-- Initial value of the `circuitBreaker` field:
`{ failures: 0, lastFailure: 0, state: 'CLOSED' }`. -/
def circuitBreakerInit : CircuitBreaker :=
  { failures := 0, lastFailure := 0, state := .CLOSED }

/-- Mirrors `onCircuitBreakerSuccess`: reset `failures` to 0 and move
HALF_OPEN to CLOSED. -/
def onCircuitBreakerSuccess (cb : CircuitBreaker) : CircuitBreaker :=
  let cb' := { cb with failures := 0 }
  if cb'.state = .HALF_OPEN then { cb' with state := .CLOSED } else cb'

/-- Mirrors `onCircuitBreakerFailure`: increment `failures`, record the
failure time. -/
def onCircuitBreakerFailure (cb : CircuitBreaker) (now : ℕ) : CircuitBreaker :=
  { cb with failures := cb.failures + 1, lastFailure := now }

/-- Possible outcomes of one wrapped call: fail fast without running the
operation, or run it and observe success/failure. -/
inductive CBOutcome where
  | failedFast
  | opSucceeded
  | opFailed
deriving DecidableEq, Repr

/-- Mirrors `executeWithCircuitBreaker` for one wrapped cache operation.
`now` is `Date.now()` at call entry and `opOk` tells whether the wrapped
operation would succeed if attempted.  Steps, in source order:
1. CLOSED with `failures >= failureThreshold` → OPEN, `lastFailure := now`;
2. OPEN with `now - lastFailure > recoveryTimeout` → HALF_OPEN;
3. if still OPEN, throw without running the operation (fail fast);
4. otherwise run it; success calls `onCircuitBreakerSuccess`, failure calls
`onCircuitBreakerFailure` and rethrows. -/
def executeWithCircuitBreaker (cb : CircuitBreaker) (now : ℕ) (opOk : Bool) :
    CircuitBreaker × CBOutcome :=
  let cb1 :=
    if cb.state = .CLOSED ∧ cb.failures ≥ failureThreshold then
      { cb with state := .OPEN, lastFailure := now }
    else cb
  let cb2 :=
    if cb1.state = .OPEN ∧ now - cb1.lastFailure > recoveryTimeout then
      { cb1 with state := .HALF_OPEN }
    else cb1
  if cb2.state = .OPEN then (cb2, .failedFast)
  else if opOk then (onCircuitBreakerSuccess cb2, .opSucceeded)
  else (onCircuitBreakerFailure cb2 now, .opFailed)

/-! ## Versioned cache writes (RedisCacheService.getCacheVersion /
updateCacheWithVersion, security-headers.guard.ts lines 1593-1636, and
AdvancedCacheService.syncCacheWithVersion, advanced-cache.service.ts
lines 319-344) -/

/-- Abstract redis state for the versioned-write operation: the stored JSON
value and the version counter per key.  `getCacheVersion` returns
`version ? parseInt(version) : 0`, so an unset version key reads as `0`;
the model stores the counter directly as `ℕ` with default 0. -/
structure VersionedCache where
  value : String → Option String
  version : String → ℕ

/-- Mirrors `RedisCacheService.getCacheVersion`. -/
def getCacheVersion (st : VersionedCache) (key : String) : ℕ :=
  st.version key

/-- Mirrors `RedisCacheService.updateCacheWithVersion`: reject (returning
`false`, leaving the store untouched) when `currentVersion && currentVersion
>= version` — JS truthiness of the number `currentVersion` is `≠ 0`;
otherwise write the value, set the version and return `true`. -/
def updateCacheWithVersion (st : VersionedCache) (key : String) (data : String)
    (version : ℕ) : Bool × VersionedCache :=
  let currentVersion := getCacheVersion st key
  if currentVersion ≠ 0 ∧ currentVersion ≥ version then (false, st)
  else
    (true,
      { value := fun k => if k = key then some data else st.value k,
        version := fun k => if k = key then version else st.version k })

/-- Mirrors `AdvancedCacheService.syncCacheWithVersion`: performs the same
truthiness-guarded version comparison, then delegates the write to
`updateCacheWithVersion` and returns `true` (the delegate's boolean result
is not consulted). -/
def syncCacheWithVersion (st : VersionedCache) (key : String) (data : String)
    (version : ℕ) : Bool × VersionedCache :=
  let currentVersion := getCacheVersion st key
  if currentVersion ≠ 0 ∧ currentVersion ≥ version then (false, st)
  else (true, (updateCacheWithVersion st key data version).2)

/-- One versioned write request: key, data, requested version. -/
structure VersionedWrite where
  key : String
  data : String
  version : ℕ

/-- A sequence of versioned writes applied through `updateCacheWithVersion`. -/
def applyVersionedWrites (st : VersionedCache) (ws : List VersionedWrite) :
    VersionedCache :=
  ws.foldl (fun s w => (updateCacheWithVersion s w.key w.data w.version).2) st

/-! ## Great-circle distance (common/utils/geo `haversineDistance`; the same
formula appears as the private `haversineDistance` of SpatialIndexService
and as `haversine` in the distance service) -/

open Classical in
/-- JavaScript `Math.atan2(y, x)`. -/
noncomputable def atan2 (y x : ℝ) : ℝ :=
  if 0 < x then Real.arctan (y / x)
  else if x < 0 ∧ 0 ≤ y then Real.arctan (y / x) + Real.pi
  else if x < 0 ∧ y < 0 then Real.arctan (y / x) - Real.pi
  else if x = 0 ∧ 0 < y then Real.pi / 2
  else if x = 0 ∧ y < 0 then -(Real.pi / 2)
  else 0

/-- Haversine distance in kilometers with Earth radius `R = 6371`:
`a = sin²(dLat/2) + cos(lat1·π/180)·cos(lat2·π/180)·sin²(dLon/2)`,
`c = 2·atan2(√a, √(1−a))`, result `R·c`. -/
noncomputable def haversineDistance (lat1 lon1 lat2 lon2 : ℝ) : ℝ :=
  let R : ℝ := 6371
  let dLat := (lat2 - lat1) * Real.pi / 180
  let dLon := (lon2 - lon1) * Real.pi / 180
  let a := Real.sin (dLat / 2) ^ 2 +
    Real.cos (lat1 * Real.pi / 180) * Real.cos (lat2 * Real.pi / 180) *
      Real.sin (dLon / 2) ^ 2
  let c := 2 * atan2 (Real.sqrt a) (Real.sqrt (1 - a))
  R * c

/-! ## Spatial index (SpatialIndexService, src/unnamed/part_011) -/

/-- Worker snapshot as consumed by the allocation engine.
`CacheService.getWorkers` selects only rows with `lat: { not: null }`,
`lon: { not: null }` and `active: true`, so coordinates are plain numbers. -/
structure Worker where
  id : String
  lat : ℚ
  lon : ℚ
deriving DecidableEq, Repr

/-- Mirrors the `SpatialPoint` record of SpatialIndexService; `data` holds
the originating worker. -/
structure SpatialPoint where
  id : String
  lat : ℚ
  lon : ℚ
  data : Worker
deriving DecidableEq, Repr

/-- The spatial index `Map<string, SpatialPoint[]>`, modelled as an
association list keyed by the integer grid pair (the string key `"a,b"`
encodes exactly that pair). -/
abbrev SIndex : Type := List ((ℤ × ℤ) × List SpatialPoint)

/-- Lookup of a grid cell's bucket; a missing key reads as the empty
bucket (`this.spatialIndex.get(cellKey) || []`). -/
def indexGet (idx : SIndex) (key : ℤ × ℤ) : List SpatialPoint :=
  ((idx.find? fun e => decide (e.1 = key)).map (fun e => e.2)).getD []

/-- Mirrors `Map.set`/`push`: create the bucket on first use, append the
point at the end of its bucket. -/
def indexInsert (idx : SIndex) (key : ℤ × ℤ) (p : SpatialPoint) : SIndex :=
  if (idx.find? fun e => decide (e.1 = key)).isSome then
    idx.map fun e => if e.1 = key then (e.1, e.2 ++ [p]) else e
  else idx ++ [(key, [p])]

/-- `GRID_SIZE = 0.01` degrees. -/
def GRID_SIZE : ℚ := 1 / 100

/-- Mirrors `getGridKey`: `(Math.floor(lat/GRID_SIZE), Math.floor(lon/GRID_SIZE))`. -/
def getGridKey (lat lon : ℚ) : ℤ × ℤ :=
  (⌊lat / GRID_SIZE⌋, ⌊lon / GRID_SIZE⌋)

/-- Mirrors `buildSpatialIndex`: every worker passing the truthiness test
`worker.lat && worker.lon` (for the numeric fields this means "not zero")
is appended to its grid cell's bucket; a worker with latitude or longitude
exactly `0` is skipped. -/
def buildSpatialIndex (workers : List Worker) : SIndex :=
  workers.foldl
    (fun idx w =>
      if w.lat ≠ 0 ∧ w.lon ≠ 0 then
        indexInsert idx (getGridKey w.lat w.lon) { id := w.id, lat := w.lat, lon := w.lon, data := w }
      else idx)
    []

/-- The integer offsets visited by `for (off = -g; off <= g; off++)`. -/
def offsetRange (g : ℤ) : List ℤ :=
  if g < 0 then [] else (List.range (2 * g.toNat + 1)).map fun (i : ℕ) => -g + (i : ℤ)

/-- Mirrors `getSearchCells`: `gridRadius = Math.ceil(radius / GRID_SIZE)`,
then the full `(2·gridRadius+1)²` square of cells around the centre cell,
latitude offset in the outer loop. -/
def getSearchCells (lat lon : ℚ) (radius : ℚ) : List (ℤ × ℤ) :=
  let gridRadius := ⌈radius / GRID_SIZE⌉
  let centerLat := ⌊lat / GRID_SIZE⌋
  let centerLon := ⌊lon / GRID_SIZE⌋
  (offsetRange gridRadius).flatMap fun latOffset =>
    (offsetRange gridRadius).map fun lonOffset =>
      (centerLat + latOffset, centerLon + lonOffset)

/-- The concatenation of the buckets of all searched cells, in search-cell
order — the list of candidates examined by `findNearbyWorkers` before its
exact-distance filter.  `searchRadius = radiusKm / 111` converts the radius
to degrees. -/
def spatialCandidates (idx : SIndex) (taskLat taskLon radiusKm : ℚ) : List SpatialPoint :=
  let searchRadius := radiusKm / 111
  (getSearchCells taskLat taskLon searchRadius).flatMap fun cell => indexGet idx cell

open Classical in
/-- The exact great-circle filter applied inside `findNearbyWorkers`:
keep a candidate iff `haversineDistance(taskLat, taskLon, w.lat, w.lon) ≤ radiusKm`. -/
noncomputable def distFilter (taskLat taskLon radiusKm : ℚ) :
    List SpatialPoint → List SpatialPoint
  | [] => []
  | p :: ps =>
    if haversineDistance taskLat taskLon p.lat p.lon ≤ (radiusKm : ℝ) then
      p :: distFilter taskLat taskLon radiusKm ps
    else distFilter taskLat taskLon radiusKm ps

/-- Mirrors `findNearbyWorkers`: enumerate the search cells, collect every
worker in those buckets and keep those within `radiusKm`.  The source's
nested cell/worker loops push kept workers in exactly the order of
`spatialCandidates`, so filtering the concatenation is the same list. -/
noncomputable def findNearbyWorkers (idx : SIndex) (taskLat taskLon radiusKm : ℚ) :
    List SpatialPoint :=
  distFilter taskLat taskLon radiusKm (spatialCandidates idx taskLat taskLon radiusKm)

/-! ## Worker selection and scoring (TaskAllocationService, lines 116-173) -/

/-- `MAX_TASKS_PER_WORKER = 50`. -/
def MAX_TASKS_PER_WORKER : ℕ := 50

/-- `MAX_ALLOCATION_RADIUS = 10` kilometres. -/
def MAX_ALLOCATION_RADIUS : ℚ := 10

/-- Task row as stored in the `Task` table (fields used by the allocation
engine).  Coordinates are nullable until geocoded. -/
structure TaskRow where
  id : String
  lat : Option ℚ
  lon : Option ℚ
  status : TaskStatus
  assignedUserId : Option String
  assignedAt : Option ℕ
  geocodePending : Bool
deriving DecidableEq, Repr

/-- Mirrors the local `WorkerPoint` helper type: worker data plus an
optional precomputed distance. -/
structure WorkerPoint where
  data : Worker
  distance : Option ℝ

/-- Mirrors `calculateWorkerScore`:
`max(0, 100 − distance/10) + (1 − currentTasks/maxTasks) · 50`. -/
noncomputable def calculateWorkerScore (distance : ℝ) (currentTasks maxTasks : ℕ) : ℝ :=
  let distanceScore := max 0 (100 - distance / 10)
  let loadScore := (1 - (currentTasks : ℝ) / (maxTasks : ℝ)) * 50
  distanceScore + loadScore

/-- The distance value used inside `selectBestWorkerOptimized`: the
precomputed `workerPoint.distance` when it is a number, otherwise the
haversine of the task and worker coordinates when all four are numbers,
otherwise `Infinity` — modelled as `none` (its only uses are a distance
score of `max(0, 100 − ∞/10) = 0` and an `Infinity` best-distance). -/
noncomputable def workerPointDistance (task : TaskRow) (wp : WorkerPoint) : Option ℝ :=
  match wp.distance with
  | some d => some d
  | none =>
    match task.lat, task.lon with
    | some tlat, some tlon =>
      some (haversineDistance (tlat : ℝ) (tlon : ℝ) (wp.data.lat : ℝ) (wp.data.lon : ℝ))
    | _, _ => none

/-- The score computed in the selection loop: `calculateWorkerScore` on the
effective distance; for an `Infinity` (`none`) distance the distance term
is `max(0, 100 − ∞/10) = 0`, leaving the load term. -/
noncomputable def workerPointScore (dOpt : Option ℝ) (currentTasks : ℕ) : ℝ :=
  match dOpt with
  | some d => calculateWorkerScore d currentTasks MAX_TASKS_PER_WORKER
  | none => (1 - (currentTasks : ℝ) / (MAX_TASKS_PER_WORKER : ℝ)) * 50

/-- Loop state of `selectBestWorkerOptimized`: the best worker found so far
with its distance, and the best score (initially `-1`). -/
structure SelectState where
  best : Option (Worker × Option ℝ)
  bestScore : ℝ

open Classical in
/-- One iteration of the `selectBestWorkerOptimized` loop: skip the
candidate when its current count reaches `MAX_TASKS_PER_WORKER`, otherwise
score it and take it iff `score > bestScore` (ties keep the earlier
candidate). -/
noncomputable def selectStep (task : TaskRow) (workerTaskCounts : String → ℕ)
    (st : SelectState) (wp : WorkerPoint) : SelectState :=
  let currentTasks := workerTaskCounts wp.data.id
  if currentTasks ≥ MAX_TASKS_PER_WORKER then st
  else
    let d := workerPointDistance task wp
    let score := workerPointScore d currentTasks
    if st.bestScore < score then { best := some (wp.data, d), bestScore := score } else st

/-- Mirrors `selectBestWorkerOptimized` (lines 116-155): fold the loop over
the candidate list and return the best worker, or `null` when none was
taken.  `workerTaskCounts` is the per-worker count record; a missing id
reads as 0 (`workerTaskCounts[worker.id] || 0`), so it is a total map. -/
noncomputable def selectBestWorkerOptimized (nearbyWorkers : List WorkerPoint)
    (workerTaskCounts : String → ℕ) (task : TaskRow) : Option (Worker × Option ℝ) :=
  (nearbyWorkers.foldl (selectStep task workerTaskCounts)
    { best := none, bestScore := -1 }).best

/-! ## Guarded bulk commit (TaskAllocationService.bulkUpdateTaskAllocations,
lines 182-214) -/

/-- A proposed allocation: task id, worker id, computed distance. -/
structure Allocation where
  taskId : String
  workerId : String
  distance : Option ℝ

/-- The row produced by the conditional update's `data` clause:
`assignedUserId = workerId`, `status = 'assigned'`, `assignedAt = now`. -/
def commitRow (now : ℕ) (a : Allocation) (t : TaskRow) : TaskRow :=
  { t with assignedUserId := some a.workerId, status := .assigned, assignedAt := some now }

/-- One guarded `updateMany({ where: { id, status: 'unassigned' } })`:
returns the updated table and the number of affected rows. -/
def updateManyUnassigned (now : ℕ) (a : Allocation) (db : List TaskRow) :
    List TaskRow × ℕ :=
  ((db.map fun t => if t.id = a.taskId ∧ t.status = .unassigned then commitRow now a t else t),
   (db.filter fun t => decide (t.id = a.taskId ∧ t.status = .unassigned)).length)

/-- One iteration of the `bulkUpdateTaskAllocations` transaction loop:
run the guarded update on the current table and record the task id
whenever `result.count > 0`. -/
def bulkStep (now : ℕ) (acc : List String × List TaskRow) (a : Allocation) :
    List String × List TaskRow :=
  let upd := updateManyUnassigned now a acc.2
  (if 0 < upd.2 then acc.1 ++ [a.taskId] else acc.1, upd.1)

/-- Mirrors `bulkUpdateTaskAllocations`: inside one transaction, run the
guarded update for each proposed allocation in order and collect the task
id whenever `result.count > 0`. -/
def bulkUpdateTaskAllocations (now : ℕ) (allocations : List Allocation)
    (db : List TaskRow) : List String × List TaskRow :=
  allocations.foldl (bulkStep now) ([], db)

/-! ## Counts and statistics (TaskAllocationService) -/

/-- Number of active tasks (`status ∈ {assigned, accepted}`) assigned to a
worker — the count behind `getWorkerCurrentTaskCount` and
`getWorkerTaskCountsBatch`. -/
def countActive (db : List TaskRow) (workerId : String) : ℕ :=
  (db.filter fun t =>
    decide (t.assignedUserId = some workerId ∧ (t.status = .assigned ∨ t.status = .accepted))).length

/-- Mirrors `getWorkerTaskCountsBatch`: a record initialised to 0 for every
requested worker id, then filled from the grouped active-task counts; ids
outside the request read as 0 (the `|| 0` at the use sites). -/
def getWorkerTaskCountsBatch (workerIds : List String) (db : List TaskRow) : String → ℕ :=
  fun wid => if wid ∈ workerIds then countActive db wid else 0

open Classical in
/-- The accumulation loop of `calculateAverageDistance`: total distance and
count of allocations whose `distance` is a number `≥ 0`. -/
noncomputable def avgAccum : List Allocation → ℝ × ℕ
  | [] => (0, 0)
  | a :: rest =>
    let acc := avgAccum rest
    match a.distance with
    | some d => if 0 ≤ d then (acc.1 + d, acc.2 + 1) else acc
    | none => acc

/-- Mirrors `calculateAverageDistance` (lines 260-277): 0 on an empty list,
otherwise the mean of the valid distances (0 when none are valid). -/
noncomputable def calculateAverageDistance (allocations : List Allocation) : ℝ :=
  if allocations.length = 0 then 0
  else
    let acc := avgAccum allocations
    if 0 < acc.2 then acc.1 / (acc.2 : ℝ) else 0

/-- Mirrors `calculateWorkerUtilization`: mean over all workers of
`count/MAX_TASKS_PER_WORKER`. -/
noncomputable def calculateWorkerUtilization (workers : List Worker)
    (workerTaskCounts : String → ℕ) : ℝ :=
  if workers.length = 0 then 0
  else
    (workers.foldl
      (fun acc w => acc + (workerTaskCounts w.id : ℝ) / (MAX_TASKS_PER_WORKER : ℝ)) 0)
      / (workers.length : ℝ)

/-! ## Cache effects (AdvancedCacheService / RedisCacheService as used by the
allocation run).  Every cache helper called by `allocateTasksOptimized`
catches its own errors (`try { ... } catch { log }`), so a helper call
consumes some cache operations — aborting the rest of its batch on the
first failure — and always returns, never throwing.  The model records the
cache store as an operation counter plus an oracle saying which operations
succeed; the helpers' return values are not consulted by the run (the
boolean result of `syncCacheWithVersion` is ignored at its call site). -/

/-- Cache-store state: how many raw operations have run, and which of them
succeed (the oracle; an always-`false` oracle is an unreachable store). -/
structure CacheState where
  tick : ℕ
  oracle : ℕ → Bool

/-- One raw cache-store operation: succeeds iff the oracle allows it. -/
def rawCacheOp (st : CacheState) : Bool × CacheState :=
  (st.oracle st.tick, { st with tick := st.tick + 1 })

/-- Run up to `n` raw operations inside one `try` block: the first failing
operation throws, the enclosing `catch` swallows it and the remaining
operations are skipped. -/
def tryCacheOps : CacheState → ℕ → CacheState
  | st, 0 => st
  | st, n + 1 =>
    let r := rawCacheOp st
    if r.1 then tryCacheOps r.2 n else r.2

/-- Effect of `AdvancedCacheService.cacheWorkersWithSpatialIndex`: one list
write plus one write per worker, all inside one `try`/`catch`. -/
def cacheWorkersWithSpatialIndexOps (st : CacheState) (workers : List Worker) : CacheState :=
  tryCacheOps st (1 + workers.length)

/-- Effect of `AdvancedCacheService.cacheSpatialIndexStats`: one write. -/
def cacheSpatialIndexStatsOps (st : CacheState) : CacheState :=
  tryCacheOps st 1

/-- Effect of `AdvancedCacheService.syncCacheWithVersion`: a version read
and a guarded write; errors are caught and reported as `false`, which the
allocation run discards. -/
def syncCacheWithVersionOps (st : CacheState) : CacheState :=
  tryCacheOps st 2

/-- Effect of `TaskAllocationService.invalidateWorkerCaches`: per affected
worker an invalidation plus a summary update, wrapped in one `try`/`catch`. -/
def invalidateWorkerCachesOps (st : CacheState) (affected : List String) : CacheState :=
  tryCacheOps st (2 * affected.length)

/-- Effect of `AdvancedCacheService.cacheAllocationResults`: a result
write, a read of the recent list and its rewrite. -/
def cacheAllocationResultsOps (st : CacheState) : CacheState :=
  tryCacheOps st 3

/-! ## The optimized allocation run (TaskAllocationService.allocateTasksOptimized,
lines 391-530) -/

/-- State of the per-task proposal loop: proposed allocations, the failure
counter, and a ghost log of the task ids for which the spatial index was
actually queried (the log is not part of the source state; it only makes
"fails without querying the index" statable). -/
structure ProposeState where
  allocations : List Allocation
  allocationFailedCount : ℕ
  queried : List String

/-- One iteration of the task loop: a task with a falsy (`null` or `0`)
coordinate fails immediately without querying the index; otherwise query
the spatial index within `MAX_ALLOCATION_RADIUS`, convert the hits to
`WorkerPoint`s without a precomputed distance, fail when there are no
hits, and otherwise propose the worker chosen by
`selectBestWorkerOptimized` (failing when it returns `null`). -/
noncomputable def proposeStep (idx : SIndex) (workerTaskCounts : String → ℕ)
    (st : ProposeState) (task : TaskRow) : ProposeState :=
  match task.lat, task.lon with
  | some tlat, some tlon =>
    if tlat = 0 ∨ tlon = 0 then
      { st with allocationFailedCount := st.allocationFailedCount + 1 }
    else
      let nearby := findNearbyWorkers idx tlat tlon MAX_ALLOCATION_RADIUS
      let nearbyPoints : List WorkerPoint := nearby.map fun sp => { data := sp.data, distance := none }
      let st1 := { st with queried := st.queried ++ [task.id] }
      if nearby.length = 0 then
        { st1 with allocationFailedCount := st1.allocationFailedCount + 1 }
      else
        match selectBestWorkerOptimized nearbyPoints workerTaskCounts task with
        | some wd =>
          { st1 with allocations :=
              st1.allocations ++ [{ taskId := task.id, workerId := wd.1.id, distance := wd.2 }] }
        | none => { st1 with allocationFailedCount := st1.allocationFailedCount + 1 }
  | _, _ => { st with allocationFailedCount := st.allocationFailedCount + 1 }

/-- The whole proposal loop over the fetched tasks, in creation order. -/
noncomputable def proposeAllocations (idx : SIndex) (workerTaskCounts : String → ℕ)
    (tasks : List TaskRow) : ProposeState :=
  tasks.foldl (proposeStep idx workerTaskCounts)
    { allocations := [], allocationFailedCount := 0, queried := [] }

/-- The metrics record returned by `allocateTasksOptimized` (wall-clock
`duration` and the echoed `spatialIndexStats` are omitted: the model has no
clock, and the stats are a function of the index alone). -/
structure AllocResult where
  totalTasks : ℕ
  allocated : ℕ
  allocationFailed : ℕ
  affectedWorkers : ℕ
  successRate : ℝ
  avgDistance : ℝ
  workerUtilization : ℝ

/-- Full observable outcome of one allocation run: the returned metrics,
the proposed and committed allocation lists, the task table after the
commit, the affected-worker set (in insertion order), the reconciled
per-worker counts and the final cache state. -/
structure RunOutcome where
  result : AllocResult
  proposed : List Allocation
  successful : List Allocation
  finalDb : List TaskRow
  affected : List String
  countsAfter : String → ℕ
  cacheFinal : CacheState

/-- `Set<string>` insertion: append when not yet present. -/
def insertUnique (l : List String) (x : String) : List String :=
  if x ∈ l then l else l ++ [x]

/-- The `allocationMap` lookup: the source stores each proposal in a
`Map` keyed by task id (later proposals overwrite earlier ones), then maps
every committed id through it. -/
def allocationLookup (allocations : List Allocation) (tid : String) : Option Allocation :=
  allocations.reverse.find? fun a => decide (a.taskId = tid)

/-- Mirrors `allocateTasksOptimized`.  Inputs: `tasks` — the fetched batch
of unassigned, geocoded tasks (the `findMany` snapshot); `workers` — the
eligible workers from `CacheService.getWorkers`; `db` — the task table at
commit/count time (it may differ from the fetch snapshot when a concurrent
writer intervened); `now` — the commit timestamp; `cache0` — the cache
store.  Steps in source order: early return when either list is empty;
build the spatial index; best-effort cache publications; batch worker
counts; the proposal loop; the guarded bulk commit; reconciliation of
counts/failures/affected workers from the committed subset; cache
invalidation for affected workers; metrics. -/
noncomputable def allocateTasksOptimized (tasks : List TaskRow) (workers : List Worker)
    (db : List TaskRow) (now : ℕ) (cache0 : CacheState) : RunOutcome :=
  if tasks.length = 0 ∨ workers.length = 0 then
    { result := { totalTasks := tasks.length, allocated := 0,
                  allocationFailed := tasks.length, affectedWorkers := 0, successRate := 0,
                  avgDistance := 0, workerUtilization := 0 },
      proposed := [], successful := [], finalDb := db, affected := [],
      countsAfter := fun _ => 0, cacheFinal := cache0 }
  else
    let idx := buildSpatialIndex workers
    let cache1 := cacheWorkersWithSpatialIndexOps cache0 workers
    let cache2 := cacheSpatialIndexStatsOps cache1
    let cache3 := syncCacheWithVersionOps cache2
    let workerTaskCounts := getWorkerTaskCountsBatch (workers.map fun w => w.id) db
    let prop := proposeAllocations idx workerTaskCounts tasks
    let allocations := prop.allocations
    let committed :=
      if 0 < allocations.length then bulkUpdateTaskAllocations now allocations db
      else ([], db)
    let successfulAllocations := committed.1.filterMap (allocationLookup allocations)
    let allocatedCount := successfulAllocations.length
    let allocationFailedCount :=
      prop.allocationFailedCount + (allocations.length - successfulAllocations.length)
    let countsAfter := fun wid =>
      workerTaskCounts wid +
        (successfulAllocations.filter fun a => decide (a.workerId = wid)).length
    let affectedWorkers := successfulAllocations.foldl (fun l a => insertUnique l a.workerId) []
    let cache4 :=
      if 0 < affectedWorkers.length then invalidateWorkerCachesOps cache3 affectedWorkers
      else cache3
    let successRate :=
      if 0 < tasks.length then ((allocatedCount : ℝ) / (tasks.length : ℝ)) * 100 else 0
    let avgDistance :=
      calculateAverageDistance
        (if 0 < successfulAllocations.length then successfulAllocations else allocations)
    let workerUtilization := calculateWorkerUtilization workers countsAfter
    let cache5 := cacheAllocationResultsOps cache4
    { result := { totalTasks := tasks.length, allocated := allocatedCount,
                  allocationFailed := allocationFailedCount,
                  affectedWorkers := affectedWorkers.length, successRate := successRate,
                  avgDistance := avgDistance, workerUtilization := workerUtilization },
      proposed := allocations, successful := successfulAllocations, finalDb := committed.2,
      affected := affectedWorkers, countsAfter := countsAfter, cacheFinal := cache5 }

/-! ## Claim C9: reallocation policy under the default configuration -/

/-- C9 counterexample: the claim says `canReallocateTask` returns `false`
for status `accepted` under the default configuration, but
`defaultTaskReallocationConfig.allowedStatuses` maps `accepted` to `true`,
so `canReallocateTask` returns `true`. -/
theorem canReallocateTask_accepted_default_true :
    canReallocateTask TaskStatus.accepted defaultTaskReallocationConfig = true := rfl

/-- C9 (amended): under the default reallocation configuration,
`canReallocateTask` returns `true` for `unassigned`, `assigned`,
`accepted` and `rejected`, and `false` only for `completed`; the
configured rejection messages of the five statuses are pairwise distinct,
in particular the disallowed status `completed` has its own message. -/
theorem canReallocateTask_default_spec :
    canReallocateTask TaskStatus.unassigned defaultTaskReallocationConfig = true ∧
    canReallocateTask TaskStatus.assigned defaultTaskReallocationConfig = true ∧
    canReallocateTask TaskStatus.accepted defaultTaskReallocationConfig = true ∧
    canReallocateTask TaskStatus.rejected defaultTaskReallocationConfig = true ∧
    canReallocateTask TaskStatus.completed defaultTaskReallocationConfig = false ∧
    getReallocationErrorMessage TaskStatus.completed defaultTaskReallocationConfig =
      "Completed tasks cannot be reallocated" ∧
    [getReallocationErrorMessage TaskStatus.unassigned defaultTaskReallocationConfig,
     getReallocationErrorMessage TaskStatus.assigned defaultTaskReallocationConfig,
     getReallocationErrorMessage TaskStatus.accepted defaultTaskReallocationConfig,
     getReallocationErrorMessage TaskStatus.rejected defaultTaskReallocationConfig,
     getReallocationErrorMessage TaskStatus.completed defaultTaskReallocationConfig].Nodup := by
  refine ⟨rfl, rfl, rfl, rfl, rfl, rfl, ?_⟩
  decide

/-! ## Claim C7: circuit-breaker state machine -/

/-- Evaluation of one wrapped call entered in CLOSED with the failure
threshold reached: the breaker opens and fails fast. -/
theorem ecb_closed_overThreshold (f lf now : ℕ) (opOk : Bool)
    (hf : failureThreshold ≤ f) :
    executeWithCircuitBreaker ⟨f, lf, .CLOSED⟩ now opOk =
      (⟨f, now, .OPEN⟩, .failedFast) := by
  simp [executeWithCircuitBreaker, hf, Nat.sub_self, recoveryTimeout]

/-- Evaluation of one wrapped call entered in CLOSED below the threshold:
the operation runs. -/
theorem ecb_closed_underThreshold (f lf now : ℕ) (opOk : Bool)
    (hf : f < failureThreshold) :
    executeWithCircuitBreaker ⟨f, lf, .CLOSED⟩ now opOk =
      (if opOk then ⟨0, lf, .CLOSED⟩ else ⟨f + 1, now, .CLOSED⟩,
       if opOk then .opSucceeded else .opFailed) := by
  cases opOk <;>
    simp [executeWithCircuitBreaker, Nat.not_le.mpr hf,
      onCircuitBreakerSuccess, onCircuitBreakerFailure]

/-- Evaluation of one wrapped call entered in OPEN before the recovery
timeout has elapsed: fail fast, state untouched. -/
theorem ecb_open_notElapsed (f lf now : ℕ) (opOk : Bool)
    (ht : now - lf ≤ recoveryTimeout) :
    executeWithCircuitBreaker ⟨f, lf, .OPEN⟩ now opOk =
      (⟨f, lf, .OPEN⟩, .failedFast) := by
  simp [executeWithCircuitBreaker, Nat.not_lt.mpr ht]

/-- Evaluation of one wrapped call entered in OPEN after the recovery
timeout: the breaker half-opens and the operation runs. -/
theorem ecb_open_elapsed (f lf now : ℕ) (opOk : Bool)
    (ht : recoveryTimeout < now - lf) :
    executeWithCircuitBreaker ⟨f, lf, .OPEN⟩ now opOk =
      (if opOk then ⟨0, lf, .CLOSED⟩ else ⟨f + 1, now, .HALF_OPEN⟩,
       if opOk then .opSucceeded else .opFailed) := by
  cases opOk <;>
    simp [executeWithCircuitBreaker, ht,
      onCircuitBreakerSuccess, onCircuitBreakerFailure]

/-- Evaluation of one wrapped call entered in HALF_OPEN: the operation
runs; success closes the breaker. -/
theorem ecb_halfOpen (f lf now : ℕ) (opOk : Bool) :
    executeWithCircuitBreaker ⟨f, lf, .HALF_OPEN⟩ now opOk =
      (if opOk then ⟨0, lf, .CLOSED⟩ else ⟨f + 1, now, .HALF_OPEN⟩,
       if opOk then .opSucceeded else .opFailed) := by
  cases opOk <;>
    simp [executeWithCircuitBreaker,
      onCircuitBreakerSuccess, onCircuitBreakerFailure]

/-- C7: the circuit breaker starts CLOSED with zero failures; a call
entered in CLOSED once `failureThreshold` (5) consecutive failures have
accumulated opens the breaker and fails fast without running the
operation; a call entered in OPEN before `recoveryTimeout` (60 s) has
elapsed since the recorded last failure fails fast and leaves the state
untouched; the state can leave OPEN during a call only when the recovery
timeout has strictly elapsed; after the timeout a successful operation
runs and brings the breaker back to CLOSED with the failure count reset;
and every successfully executed operation resets the consecutive-failure
count to zero, closing the breaker when it was HALF_OPEN. -/
theorem executeWithCircuitBreaker_spec :
    (circuitBreakerInit.state = CBState.CLOSED ∧ circuitBreakerInit.failures = 0) ∧
    (∀ cb : CircuitBreaker, ∀ now : ℕ, ∀ opOk : Bool,
      cb.state = CBState.CLOSED → failureThreshold ≤ cb.failures →
      (executeWithCircuitBreaker cb now opOk).1.state = CBState.OPEN ∧
      (executeWithCircuitBreaker cb now opOk).2 = CBOutcome.failedFast) ∧
    (∀ cb : CircuitBreaker, ∀ now : ℕ, ∀ opOk : Bool,
      cb.state = CBState.OPEN → now - cb.lastFailure ≤ recoveryTimeout →
      (executeWithCircuitBreaker cb now opOk).2 = CBOutcome.failedFast ∧
      (executeWithCircuitBreaker cb now opOk).1 = cb) ∧
    (∀ cb : CircuitBreaker, ∀ now : ℕ, ∀ opOk : Bool,
      cb.state = CBState.OPEN →
      (executeWithCircuitBreaker cb now opOk).2 ≠ CBOutcome.failedFast →
      recoveryTimeout < now - cb.lastFailure) ∧
    (∀ cb : CircuitBreaker, ∀ now : ℕ,
      cb.state = CBState.OPEN → recoveryTimeout < now - cb.lastFailure →
      (executeWithCircuitBreaker cb now true).2 = CBOutcome.opSucceeded ∧
      (executeWithCircuitBreaker cb now true).1.state = CBState.CLOSED ∧
      (executeWithCircuitBreaker cb now true).1.failures = 0) ∧
    (∀ cb : CircuitBreaker, ∀ now : ℕ,
      (executeWithCircuitBreaker cb now true).2 = CBOutcome.opSucceeded →
      (executeWithCircuitBreaker cb now true).1.failures = 0 ∧
      (cb.state = CBState.HALF_OPEN →
        (executeWithCircuitBreaker cb now true).1.state = CBState.CLOSED)) := by
  refine ⟨⟨rfl, rfl⟩, ?_, ?_, ?_, ?_, ?_⟩
  · rintro ⟨f, lf, s⟩ now opOk hs hf
    cases s
    · rw [ecb_closed_overThreshold f lf now opOk hf]
      exact ⟨rfl, rfl⟩
    · exact absurd hs (by simp)
    · exact absurd hs (by simp)
  · rintro ⟨f, lf, s⟩ now opOk hs ht
    cases s
    · exact absurd hs (by simp)
    · rw [ecb_open_notElapsed f lf now opOk ht]
      exact ⟨rfl, rfl⟩
    · exact absurd hs (by simp)
  · rintro ⟨f, lf, s⟩ now opOk hs hne
    cases s
    · exact absurd hs (by simp)
    · by_contra hto
      push_neg at hto
      rw [ecb_open_notElapsed f lf now opOk hto] at hne
      exact hne rfl
    · exact absurd hs (by simp)
  · rintro ⟨f, lf, s⟩ now hs ht
    cases s
    · exact absurd hs (by simp)
    · rw [ecb_open_elapsed f lf now true ht]
      exact ⟨rfl, rfl, rfl⟩
    · exact absurd hs (by simp)
  · rintro ⟨f, lf, s⟩ now hok
    cases s
    · by_cases hf : failureThreshold ≤ f
      · rw [ecb_closed_overThreshold f lf now true hf] at hok ⊢
        exact absurd hok (by simp)
      · rw [ecb_closed_underThreshold f lf now true (Nat.not_le.mp hf)]
        exact ⟨rfl, by intro h; exact absurd h (by simp)⟩
    · by_cases ht : recoveryTimeout < now - lf
      · rw [ecb_open_elapsed f lf now true ht]
        exact ⟨rfl, fun _ => rfl⟩
      · rw [ecb_open_notElapsed f lf now true (Nat.not_lt.mp ht)] at hok ⊢
        exact absurd hok (by simp)
    · rw [ecb_halfOpen f lf now true]
      exact ⟨rfl, fun _ => rfl⟩

/-- C7 witness: a breaker in CLOSED with 5 accumulated failures opens and
fails fast on the next call. -/
theorem executeWithCircuitBreaker_spec_witness :
    (executeWithCircuitBreaker ⟨5, 0, .CLOSED⟩ 7 false).1.state = CBState.OPEN ∧
    (executeWithCircuitBreaker ⟨5, 0, .CLOSED⟩ 7 false).2 = CBOutcome.failedFast :=
  executeWithCircuitBreaker_spec.2.1 ⟨5, 0, .CLOSED⟩ 7 false rfl (by decide)

/-! ## Claim C8: optimistic versioned writes -/

/-- A fresh versioned-cache state: no values, every version counter unset
(reads as 0). -/
def emptyVersionedCache : VersionedCache :=
  { value := fun _ => none, version := fun _ => 0 }

/-- A versioned-cache state whose counter for key `"k"` is 5. -/
def versionedCacheAt5 : VersionedCache :=
  { value := fun _ => none, version := fun k => if k = "k" then 5 else 0 }

/-- C8 counterexample: with the stored version counter at 0 (unset), a
write carrying version 0 is accepted — `updateCacheWithVersion` returns
`true` and stores the value — although the caller's version (0) does not
strictly exceed the stored version (0).  The `currentVersion &&
currentVersion >= version` guard skips the comparison whenever the stored
counter is 0, because 0 is falsy. -/
theorem updateCacheWithVersion_accepts_equal_zero :
    (updateCacheWithVersion emptyVersionedCache "k" "d" 0).1 = true ∧
    (updateCacheWithVersion emptyVersionedCache "k" "d" 0).2.value "k" = some "d" ∧
    ¬ getCacheVersion emptyVersionedCache "k" < 0 := by
  refine ⟨rfl, ?_, by simp⟩
  simp [updateCacheWithVersion, getCacheVersion, emptyVersionedCache]

/-- C8 (amended): a versioned write is accepted iff the stored counter is
0 (unset) or the caller's version strictly exceeds it; a rejected write
leaves the stored value and counter completely unchanged; each write, and
hence any sequence of writes, never decreases the stored counter of any
key; and `syncCacheWithVersion` decides and acts exactly like
`updateCacheWithVersion`. -/
theorem updateCacheWithVersion_spec :
    (∀ st : VersionedCache, ∀ key data : String, ∀ version : ℕ,
      ((updateCacheWithVersion st key data version).1 = true ↔
        getCacheVersion st key = 0 ∨ getCacheVersion st key < version)) ∧
    (∀ st : VersionedCache, ∀ key data : String, ∀ version : ℕ,
      (updateCacheWithVersion st key data version).1 = false →
      (updateCacheWithVersion st key data version).2 = st) ∧
    (∀ st : VersionedCache, ∀ key data : String, ∀ version : ℕ, ∀ k : String,
      st.version k ≤ (updateCacheWithVersion st key data version).2.version k) ∧
    (∀ st : VersionedCache, ∀ ws : List VersionedWrite, ∀ k : String,
      st.version k ≤ (applyVersionedWrites st ws).version k) ∧
    (∀ st : VersionedCache, ∀ key data : String, ∀ version : ℕ,
      syncCacheWithVersion st key data version =
        updateCacheWithVersion st key data version) := by
  have hmono : ∀ st : VersionedCache, ∀ key data : String, ∀ version : ℕ, ∀ k : String,
      st.version k ≤ (updateCacheWithVersion st key data version).2.version k := by
    intro st key data version k
    by_cases h : getCacheVersion st key ≠ 0 ∧ version ≤ getCacheVersion st key
    · simp [updateCacheWithVersion, h]
    · simp only [updateCacheWithVersion, if_neg h]
      by_cases hk : k = key
      · subst hk
        rcases Decidable.not_and_iff_or_not.mp h with h0 | hv
        · simp only [ne_eq, Decidable.not_not] at h0
          simp [getCacheVersion] at h0
          simp [h0]
        · have := Nat.le_of_lt (Nat.lt_of_not_le hv)
          simpa [getCacheVersion] using this
      · simp [hk]
  refine ⟨?_, ?_, hmono, ?_, ?_⟩
  · intro st key data version
    by_cases h : getCacheVersion st key ≠ 0 ∧ version ≤ getCacheVersion st key
    · simp only [updateCacheWithVersion, if_pos h]
      constructor
      · intro hfalse
        exact absurd hfalse (by simp)
      · intro hor
        rcases hor with h0 | hv
        · exact absurd h0 h.1
        · exact absurd h.2 (Nat.not_le.mpr hv)
    · simp only [updateCacheWithVersion, if_neg h]
      constructor
      · intro _
        rcases Decidable.not_and_iff_or_not.mp h with h0 | hv
        · exact Or.inl (by simpa using h0)
        · exact Or.inr (Nat.lt_of_not_le hv)
      · intro _
        trivial
  · intro st key data version hfalse
    by_cases h : getCacheVersion st key ≠ 0 ∧ version ≤ getCacheVersion st key
    · simp [updateCacheWithVersion, h]
    · simp [updateCacheWithVersion, h] at hfalse
  · intro st ws
    induction ws generalizing st with
    | nil => intro k; exact le_refl _
    | cons w rest ih =>
      intro k
      calc st.version k
          ≤ (updateCacheWithVersion st w.key w.data w.version).2.version k :=
            hmono st w.key w.data w.version k
        _ ≤ (applyVersionedWrites (updateCacheWithVersion st w.key w.data w.version).2
              rest).version k := ih _ k
  · intro st key data version
    by_cases h : getCacheVersion st key ≠ 0 ∧ version ≤ getCacheVersion st key
    · simp [syncCacheWithVersion, updateCacheWithVersion, h]
    · simp [syncCacheWithVersion, updateCacheWithVersion, h]

/-- C8 witness: a write carrying version 3 against a stored counter of 5
is rejected and leaves the store unchanged. -/
theorem updateCacheWithVersion_spec_witness :
    (updateCacheWithVersion versionedCacheAt5 "k" "d" 3).2 = versionedCacheAt5 :=
  updateCacheWithVersion_spec.2.1 versionedCacheAt5 "k" "d" 3
    (by simp [updateCacheWithVersion, getCacheVersion, versionedCacheAt5])

/-! ## Claim C3: guarded bulk commit -/

/-- The per-row effect of one guarded update (the `updateMany` of
`bulkUpdateTaskAllocations`). -/
def rowGuardUpdate (now : ℕ) (a : Allocation) (t : TaskRow) : TaskRow :=
  if t.id = a.taskId ∧ t.status = .unassigned then commitRow now a t else t

/-- Whether the table holds a row with the given id that is still
unassigned — the commit condition of one guarded update. -/
def taskUnassignedIn (db : List TaskRow) (tid : String) : Bool :=
  db.any fun t => decide (t.id = tid ∧ t.status = .unassigned)

/-- The net per-row effect of the whole guarded batch when the proposed
task ids are distinct: a row targeted by a proposal and still unassigned
is committed to that proposal's worker; every other row is untouched. -/
def bulkSpecRow (now : ℕ) (allocations : List Allocation) (t : TaskRow) : TaskRow :=
  match allocations.find? (fun a => decide (a.taskId = t.id)) with
  | some a => if t.status = .unassigned then commitRow now a t else t
  | none => t

theorem rowGuardUpdate_eq_map (now : ℕ) (a : Allocation) (db : List TaskRow) :
    (updateManyUnassigned now a db).1 = db.map (rowGuardUpdate now a) := by
  unfold updateManyUnassigned rowGuardUpdate
  rfl

theorem commitRow_id (now : ℕ) (a : Allocation) (t : TaskRow) :
    (commitRow now a t).id = t.id := rfl

theorem commitRow_status (now : ℕ) (a : Allocation) (t : TaskRow) :
    (commitRow now a t).status = .assigned := rfl

theorem rowGuardUpdate_pred (now : ℕ) (a : Allocation) (t : TaskRow) (tid : String)
    (h : tid ≠ a.taskId) :
    ((rowGuardUpdate now a t).id = tid ∧ (rowGuardUpdate now a t).status = .unassigned) ↔
      (t.id = tid ∧ t.status = .unassigned) := by
  unfold rowGuardUpdate
  split
  · rename_i hc
    constructor
    · rintro ⟨h1, h2⟩
      exact absurd h2 (by simp [commitRow])
    · rintro ⟨h1, h2⟩
      exact absurd (h1 ▸ hc.1) h
  · exact Iff.rfl

theorem taskUnassignedIn_update_ne (now : ℕ) (a : Allocation) (db : List TaskRow)
    (tid : String) (h : tid ≠ a.taskId) :
    taskUnassignedIn (db.map (rowGuardUpdate now a)) tid = taskUnassignedIn db tid := by
  unfold taskUnassignedIn
  induction db with
  | nil => rfl
  | cons t rest ih =>
    simp only [List.map_cons, List.any_cons, ih]
    congr 1
    exact decide_eq_decide.mpr (rowGuardUpdate_pred now a t tid h)

theorem count_pos_iff (now : ℕ) (a : Allocation) (db : List TaskRow) :
    0 < (updateManyUnassigned now a db).2 ↔ taskUnassignedIn db a.taskId = true := by
  unfold updateManyUnassigned taskUnassignedIn
  simp only [List.length_pos, ne_eq, List.filter_eq_nil_iff, List.any_eq_true,
    decide_eq_true_eq, not_forall]
  constructor
  · rintro ⟨t, ht, hp⟩
    exact ⟨t, ht, not_not.mp hp⟩
  · rintro ⟨t, ht, hp⟩
    exact ⟨t, ht, not_not.mpr hp⟩

theorem bulkSpecRow_nil (now : ℕ) (t : TaskRow) : bulkSpecRow now [] t = t := rfl

theorem bulkSpecRow_id (now : ℕ) (allocations : List Allocation) (t : TaskRow) :
    (bulkSpecRow now allocations t).id = t.id := by
  unfold bulkSpecRow
  split
  · split
    · rfl
    · rfl
  · rfl

/-- Per-row agreement used in the induction step of the batch
characterization: applying the head update then the tail batch equals
applying the whole batch, when the head's task id occurs in no tail
proposal. -/
theorem bulkSpecRow_cons (now : ℕ) (a : Allocation) (rest : List Allocation)
    (hnotin : ∀ a2 ∈ rest, a2.taskId ≠ a.taskId) (t : TaskRow) :
    bulkSpecRow now rest (rowGuardUpdate now a t) = bulkSpecRow now (a :: rest) t := by
  by_cases hc : t.id = a.taskId ∧ t.status = .unassigned
  · have hr : rowGuardUpdate now a t = commitRow now a t := if_pos hc
    have hfind : rest.find? (fun a2 => decide (a2.taskId = (commitRow now a t).id)) = none := by
      rw [List.find?_eq_none]
      intro a2 h2
      simp only [commitRow_id, hc.1, decide_eq_true_eq]
      exact hnotin a2 h2
    have hfa : decide (a.taskId = t.id) = true := by
      simp [hc.1]
    rw [hr]
    unfold bulkSpecRow
    rw [hfind, List.find?_cons, hfa]
    exact (if_pos hc.2).symm
  · have hr : rowGuardUpdate now a t = t := if_neg hc
    rw [hr]
    rcases Decidable.not_and_iff_or_not.mp hc with hid | hst
    · have hfa : decide (a.taskId = t.id) = false := by
        simp only [decide_eq_false_iff_not]
        exact fun hh => hid hh.symm
      unfold bulkSpecRow
      rw [List.find?_cons, hfa]
    · have hall : ∀ l : List Allocation, bulkSpecRow now l t = t := by
        intro l
        cases hf : l.find? fun a2 => decide (a2.taskId = t.id) with
        | none => simp [bulkSpecRow, hf]
        | some a2 => simp [bulkSpecRow, hf, hst]
      rw [hall rest, hall (a :: rest)]

/-- Characterization of the `bulkUpdateTaskAllocations` fold, for
duplicate-free proposed task ids and an arbitrary already-collected id
accumulator: the collected ids are those of the proposals whose task was
still unassigned when its update ran, and the final table is the per-row
`bulkSpecRow` image of the input table. -/
theorem bulkUpdate_char (now : ℕ) :
    ∀ (allocations : List Allocation) (acc : List String) (db : List TaskRow),
    (allocations.map fun a => a.taskId).Nodup →
    allocations.foldl (bulkStep now) (acc, db) =
      (acc ++ ((allocations.filter fun a => taskUnassignedIn db a.taskId).map fun a => a.taskId),
        db.map (bulkSpecRow now allocations)) := by
  intro allocations
  induction allocations with
  | nil =>
    intro acc db _
    simp only [List.foldl_nil, List.filter_nil, List.map_nil, List.append_nil]
    rw [List.map_congr_left fun t _ => bulkSpecRow_nil now t]
    simp
  | cons a rest ih =>
    intro acc db hnd
    have hnd' : (a.taskId :: rest.map fun a2 => a2.taskId).Nodup := by simpa using hnd
    have hndrest : (rest.map fun a2 => a2.taskId).Nodup := (List.nodup_cons.mp hnd').2
    have hnotmem := (List.nodup_cons.mp hnd').1
    have hnotin : ∀ a2 ∈ rest, a2.taskId ≠ a.taskId := fun a2 h2 heq =>
      hnotmem (heq ▸ List.mem_map_of_mem (fun x => x.taskId) h2)
    simp only [List.foldl_cons]
    have hstep : bulkStep now (acc, db) a =
        ((if taskUnassignedIn db a.taskId = true then acc ++ [a.taskId] else acc),
          db.map (rowGuardUpdate now a)) := by
      simp only [bulkStep]
      rw [rowGuardUpdate_eq_map]
      by_cases hcnt : 0 < (updateManyUnassigned now a db).2
      · rw [if_pos hcnt, if_pos ((count_pos_iff now a db).mp hcnt)]
      · rw [if_neg hcnt,
          if_neg fun hh => hcnt ((count_pos_iff now a db).mpr hh)]
    rw [hstep, ih _ _ hndrest]
    have hfiltcong : (rest.filter fun a2 => taskUnassignedIn (db.map (rowGuardUpdate now a)) a2.taskId) =
        (rest.filter fun a2 => taskUnassignedIn db a2.taskId) :=
      List.filter_congr fun a2 h2 =>
        taskUnassignedIn_update_ne now a db a2.taskId (hnotin a2 h2)
    have hmapcong : (db.map (rowGuardUpdate now a)).map (bulkSpecRow now rest) =
        db.map (bulkSpecRow now (a :: rest)) := by
      rw [List.map_map]
      exact List.map_congr_left fun t _ => bulkSpecRow_cons now a rest hnotin t
    rw [hfiltcong, hmapcong]
    by_cases hu : taskUnassignedIn db a.taskId = true
    · rw [if_pos hu, List.filter_cons_of_pos (by simpa using hu), List.map_cons,
        List.append_assoc]
      rfl
    · rw [if_neg hu, List.filter_cons_of_neg (by simpa using hu)]

/-- After the batch has committed, no proposed task id is still
unassigned in the table. -/
theorem taskUnassignedIn_after (now : ℕ) (allocations : List Allocation)
    (db : List TaskRow) (a : Allocation) (ha : a ∈ allocations) :
    taskUnassignedIn (db.map (bulkSpecRow now allocations)) a.taskId = false := by
  unfold taskUnassignedIn
  rw [List.any_eq_false]
  intro r hr
  rw [List.mem_map] at hr
  obtain ⟨t, ht, rfl⟩ := hr
  simp only [decide_eq_true_eq, not_and]
  intro hid hstat
  rw [bulkSpecRow_id] at hid
  have hsome : (allocations.find? fun a2 => decide (a2.taskId = t.id)).isSome := by
    rw [List.find?_isSome]
    exact ⟨a, ha, by simp [hid]⟩
  cases hf : allocations.find? fun a2 => decide (a2.taskId = t.id) with
  | none =>
    rw [hf] at hsome
    simp at hsome
  | some a0 =>
    by_cases hst : t.status = .unassigned
    · have hrow : bulkSpecRow now allocations t = commitRow now a0 t := by
        unfold bulkSpecRow
        rw [hf]
        exact if_pos hst
      rw [hrow] at hstat
      exact absurd hstat (by simp [commitRow])
    · have hrow : bulkSpecRow now allocations t = t := by
        unfold bulkSpecRow
        rw [hf]
        exact if_neg hst
      rw [hrow] at hstat
      exact hst hstat

/-- Running the guarded batch against a table in which no proposed task is
still unassigned commits nothing and changes nothing. -/
theorem bulkUpdate_noop (now2 : ℕ) (allocations : List Allocation) (db2 : List TaskRow)
    (hnd : (allocations.map fun a => a.taskId).Nodup)
    (hnone : ∀ a ∈ allocations, taskUnassignedIn db2 a.taskId = false) :
    bulkUpdateTaskAllocations now2 allocations db2 = ([], db2) := by
  unfold bulkUpdateTaskAllocations
  rw [bulkUpdate_char now2 allocations [] db2 hnd]
  have hfilt : (allocations.filter fun a => taskUnassignedIn db2 a.taskId) = [] := by
    rw [List.filter_eq_nil_iff]
    intro a ha
    simp [hnone a ha]
  rw [hfilt]
  simp only [List.map_nil, List.nil_append]
  congr 1
  have hrow : ∀ t ∈ db2, bulkSpecRow now2 allocations t = t := by
    intro t ht
    cases hf : allocations.find? fun a2 => decide (a2.taskId = t.id) with
    | none =>
      unfold bulkSpecRow
      rw [hf]
    | some a0 =>
      have ha0 := List.find?_some hf
      have hmem : a0 ∈ allocations := List.mem_of_find?_eq_some hf
      simp only [decide_eq_true_eq] at ha0
      have hany := hnone a0 hmem
      unfold taskUnassignedIn at hany
      rw [List.any_eq_false] at hany
      have hnt := hany t ht
      simp only [decide_eq_true_eq, not_and] at hnt
      have hst : ¬ t.status = .unassigned := hnt ha0.symm
      unfold bulkSpecRow
      rw [hf]
      exact if_neg hst
  calc db2.map (bulkSpecRow now2 allocations) = db2.map fun t => t :=
        List.map_congr_left hrow
    _ = db2 := by simp

/-- C3: for every batch of proposed (task, worker) pairs with
pairwise-distinct task ids, `bulkUpdateTaskAllocations` returns exactly the
ids of the proposed tasks that were still unassigned when their guarded
update ran; each such row is committed to its proposal's worker (status
becomes `assigned`, `assignedUserId` is set, `assignedAt` stamped); every
row not committed — in particular every task whose status was not
`unassigned` — is left completely unchanged and its id is absent from the
result; and re-applying the whole batch to the committed table is a no-op
(no ids returned, no row changed) rather than an error. -/
theorem bulkUpdateTaskAllocations_spec :
    ∀ (now : ℕ) (allocations : List Allocation) (db : List TaskRow),
    (allocations.map fun a => a.taskId).Nodup →
    ((bulkUpdateTaskAllocations now allocations db).1 =
        (allocations.filter fun a => taskUnassignedIn db a.taskId).map fun a => a.taskId) ∧
    ((bulkUpdateTaskAllocations now allocations db).2 =
        db.map (bulkSpecRow now allocations)) ∧
    (∀ a ∈ allocations, taskUnassignedIn db a.taskId = false →
      a.taskId ∉ (bulkUpdateTaskAllocations now allocations db).1) ∧
    (∀ now2 : ℕ,
      bulkUpdateTaskAllocations now2 allocations
          (bulkUpdateTaskAllocations now allocations db).2 =
        ([], (bulkUpdateTaskAllocations now allocations db).2)) := by
  intro now allocations db hnd
  have h1 : bulkUpdateTaskAllocations now allocations db =
      (((allocations.filter fun a => taskUnassignedIn db a.taskId).map fun a => a.taskId),
        db.map (bulkSpecRow now allocations)) := by
    unfold bulkUpdateTaskAllocations
    rw [bulkUpdate_char now allocations [] db hnd]
    simp
  refine ⟨by rw [h1], by rw [h1], ?_, ?_⟩
  · intro a ha hfalse hmem
    rw [h1] at hmem
    simp only [List.mem_map, List.mem_filter] at hmem
    obtain ⟨a2, ⟨hmem2, hun⟩, heq⟩ := hmem
    exact absurd (heq ▸ hun) (by simp [hfalse])
  · intro now2
    rw [h1]
    exact bulkUpdate_noop now2 allocations _ hnd
      (fun a ha => taskUnassignedIn_after now allocations db a ha)

/-- Concrete proposed pairs for the C3 witness. -/
def c3Allocs : List Allocation :=
  [{ taskId := "t1", workerId := "w1", distance := none },
   { taskId := "t2", workerId := "w2", distance := none }]

/-- Concrete table for the C3 witness: `t1` still unassigned, `t2` already
assigned to another worker. -/
def c3Db : List TaskRow :=
  [{ id := "t1", lat := some 1, lon := some 1, status := .unassigned,
     assignedUserId := none, assignedAt := none, geocodePending := false },
   { id := "t2", lat := some 1, lon := some 1, status := .assigned,
     assignedUserId := some "x", assignedAt := none, geocodePending := false }]

/-- C3 witness: the characterization applied to a concrete two-proposal
batch over a table where one task is still unassigned and the other is
already claimed. -/
theorem bulkUpdateTaskAllocations_spec_witness :
    ((bulkUpdateTaskAllocations 7 c3Allocs c3Db).1 =
        (c3Allocs.filter fun a => taskUnassignedIn c3Db a.taskId).map fun a => a.taskId) ∧
    ((bulkUpdateTaskAllocations 7 c3Allocs c3Db).2 =
        c3Db.map (bulkSpecRow 7 c3Allocs)) ∧
    (∀ a ∈ c3Allocs, taskUnassignedIn c3Db a.taskId = false →
      a.taskId ∉ (bulkUpdateTaskAllocations 7 c3Allocs c3Db).1) ∧
    (∀ now2 : ℕ,
      bulkUpdateTaskAllocations now2 c3Allocs (bulkUpdateTaskAllocations 7 c3Allocs c3Db).2 =
        ([], (bulkUpdateTaskAllocations 7 c3Allocs c3Db).2)) :=
  bulkUpdateTaskAllocations_spec 7 c3Allocs c3Db (by decide)

/-! ## Claim C5: worker selection -/

/-- The score the selection loop computes for a candidate. -/
noncomputable def candScore (task : TaskRow) (counts : String → ℕ) (wp : WorkerPoint) : ℝ :=
  workerPointScore (workerPointDistance task wp) (counts wp.data.id)

theorem selectStep_skip (task : TaskRow) (counts : String → ℕ) (st : SelectState)
    (wp : WorkerPoint) (h : MAX_TASKS_PER_WORKER ≤ counts wp.data.id) :
    selectStep task counts st wp = st := by
  simp only [selectStep]
  rw [if_pos h]

theorem selectStep_noupdate (task : TaskRow) (counts : String → ℕ) (st : SelectState)
    (wp : WorkerPoint) (h : counts wp.data.id < MAX_TASKS_PER_WORKER)
    (hs : ¬ st.bestScore < candScore task counts wp) :
    selectStep task counts st wp = st := by
  unfold candScore at hs
  simp only [selectStep]
  rw [if_neg (not_le.mpr h), if_neg hs]

theorem selectStep_update (task : TaskRow) (counts : String → ℕ) (st : SelectState)
    (wp : WorkerPoint) (h : counts wp.data.id < MAX_TASKS_PER_WORKER)
    (hs : st.bestScore < candScore task counts wp) :
    selectStep task counts st wp =
      { best := some (wp.data, workerPointDistance task wp),
        bestScore := candScore task counts wp } := by
  unfold candScore at hs ⊢
  simp only [selectStep]
  rw [if_neg (not_le.mpr h), if_pos hs]

/-- A candidate below the load cap scores strictly above the `-1`
initialization: the distance term is at least 0 and the load term is
strictly positive. -/
theorem candScore_pos (task : TaskRow) (counts : String → ℕ) (wp : WorkerPoint)
    (h : counts wp.data.id < MAX_TASKS_PER_WORKER) :
    (-1 : ℝ) < candScore task counts wp := by
  have hload : (0 : ℝ) < (1 - (counts wp.data.id : ℝ) / (MAX_TASKS_PER_WORKER : ℝ)) * 50 := by
    have h1 : (counts wp.data.id : ℝ) < (MAX_TASKS_PER_WORKER : ℝ) := by
      exact_mod_cast h
    have h2 : (0 : ℝ) < (MAX_TASKS_PER_WORKER : ℝ) := by norm_num [MAX_TASKS_PER_WORKER]
    have : (counts wp.data.id : ℝ) / (MAX_TASKS_PER_WORKER : ℝ) < 1 :=
      (div_lt_one h2).mpr h1
    nlinarith
  unfold candScore workerPointScore
  cases workerPointDistance task wp with
  | none => linarith
  | some d =>
    unfold calculateWorkerScore
    have : (0 : ℝ) ≤ max 0 (100 - d / 10) := le_max_left _ _
    linarith

/-- Characterization of the selection fold from an arbitrary loop state:
either no candidate under the cap beats the current best score and the
state is returned unchanged, or the final state holds the first candidate
under the cap whose score strictly beats the incoming best score and is
never strictly beaten afterwards. -/
theorem selectFold_char (task : TaskRow) (counts : String → ℕ) :
    ∀ (l : List WorkerPoint) (st : SelectState),
    ((∀ wp ∈ l, counts wp.data.id < MAX_TASKS_PER_WORKER →
        candScore task counts wp ≤ st.bestScore) ∧
      l.foldl (selectStep task counts) st = st) ∨
    (∃ l1 w l2, l = l1 ++ w :: l2 ∧
      counts w.data.id < MAX_TASKS_PER_WORKER ∧
      st.bestScore < candScore task counts w ∧
      l.foldl (selectStep task counts) st =
        { best := some (w.data, workerPointDistance task w),
          bestScore := candScore task counts w } ∧
      (∀ u ∈ l, counts u.data.id < MAX_TASKS_PER_WORKER →
        candScore task counts u ≤ candScore task counts w) ∧
      (∀ u ∈ l1, counts u.data.id < MAX_TASKS_PER_WORKER →
        candScore task counts u < candScore task counts w)) := by
  intro l
  induction l with
  | nil =>
    intro st
    exact Or.inl ⟨by simp, rfl⟩
  | cons wp rest ih =>
    intro st
    by_cases helig : counts wp.data.id < MAX_TASKS_PER_WORKER
    · by_cases hbeat : st.bestScore < candScore task counts wp
      · -- the head updates the state
        have hstep := selectStep_update task counts st wp helig hbeat
        have ihx := ih { best := some (wp.data, workerPointDistance task wp), bestScore := candScore task counts wp }
        rcases ihx with ⟨hall, hfold⟩ | ⟨l1, w, l2, hdec, hw, hlt, hfold, hub, hstrict⟩
        · refine Or.inr ⟨[], wp, rest, rfl, helig, hbeat, ?_, ?_, by simp⟩
          · rw [List.foldl_cons, hstep, hfold]
          · intro u hu helu
            rcases List.mem_cons.mp hu with rfl | hu2
            · exact le_refl _
            · exact hall u hu2 helu
        · refine Or.inr ⟨wp :: l1, w, l2, by simp [hdec], hw, lt_trans hbeat hlt, ?_, ?_, ?_⟩
          · rw [List.foldl_cons, hstep, hdec] at *
            exact hfold
          · intro u hu helu
            rcases List.mem_cons.mp hu with rfl | hu2
            · exact le_of_lt hlt
            · exact hub u (hdec ▸ hu2) helu
          · intro u hu helu
            rcases List.mem_cons.mp hu with rfl | hu2
            · exact hlt
            · exact hstrict u hu2 helu
      · -- head under cap but does not beat the best score
        have hstep := selectStep_noupdate task counts st wp helig hbeat
        rcases ih st with ⟨hall, hfold⟩ | ⟨l1, w, l2, hdec, hw, hlt, hfold, hub, hstrict⟩
        · refine Or.inl ⟨?_, by rw [List.foldl_cons, hstep, hfold]⟩
          intro u hu helu
          rcases List.mem_cons.mp hu with rfl | hu2
          · exact not_lt.mp hbeat
          · exact hall u hu2 helu
        · refine Or.inr ⟨wp :: l1, w, l2, by simp [hdec], hw, hlt, ?_, ?_, ?_⟩
          · rw [List.foldl_cons, hstep]
            exact hfold
          · intro u hu helu
            rcases List.mem_cons.mp hu with rfl | hu2
            · exact le_trans (not_lt.mp hbeat) (le_of_lt hlt)
            · exact hub u (hdec ▸ hu2) helu
          · intro u hu helu
            rcases List.mem_cons.mp hu with rfl | hu2
            · exact lt_of_le_of_lt (not_lt.mp hbeat) hlt
            · exact hstrict u hu2 helu
    · -- head at or above the cap: skipped
      have hstep := selectStep_skip task counts st wp (not_lt.mp helig)
      rcases ih st with ⟨hall, hfold⟩ | ⟨l1, w, l2, hdec, hw, hlt, hfold, hub, hstrict⟩
      · refine Or.inl ⟨?_, by rw [List.foldl_cons, hstep, hfold]⟩
        intro u hu helu
        rcases List.mem_cons.mp hu with rfl | hu2
        · exact absurd helu helig
        · exact hall u hu2 helu
      · refine Or.inr ⟨wp :: l1, w, l2, by simp [hdec], hw, hlt, ?_, ?_, ?_⟩
        · rw [List.foldl_cons, hstep]
          exact hfold
        · intro u hu helu
          rcases List.mem_cons.mp hu with rfl | hu2
          · exact absurd helu helig
          · exact hub u (hdec ▸ hu2) helu
        · intro u hu helu
          rcases List.mem_cons.mp hu with rfl | hu2
          · exact absurd helu helig
          · exact hstrict u hu2 helu

/-- C5: `selectBestWorkerOptimized` first excludes candidates whose current
load is at or above `MAX_TASKS_PER_WORKER` — if every candidate is
excluded it returns `null` — scores each remaining candidate by
`calculateWorkerScore` (the formula `max(0, 100 − distanceKm/10) +
(1 − currentLoad/maxLoad)·50`), and returns the first candidate in
enumeration order whose score is strictly highest: its score is maximal
among candidates under the cap and every earlier under-cap candidate
scores strictly lower. -/
theorem selectBestWorkerOptimized_spec :
    ∀ (task : TaskRow) (counts : String → ℕ) (l : List WorkerPoint),
    ((∀ wp ∈ l, MAX_TASKS_PER_WORKER ≤ counts wp.data.id) →
      selectBestWorkerOptimized l counts task = none) ∧
    (∀ wp0 ∈ l, counts wp0.data.id < MAX_TASKS_PER_WORKER →
      ∃ l1 w l2, l = l1 ++ w :: l2 ∧
        counts w.data.id < MAX_TASKS_PER_WORKER ∧
        selectBestWorkerOptimized l counts task =
          some (w.data, workerPointDistance task w) ∧
        (∀ u ∈ l, counts u.data.id < MAX_TASKS_PER_WORKER →
          candScore task counts u ≤ candScore task counts w) ∧
        (∀ u ∈ l1, counts u.data.id < MAX_TASKS_PER_WORKER →
          candScore task counts u < candScore task counts w)) ∧
    (∀ d : ℝ, ∀ load : ℕ,
      calculateWorkerScore d load MAX_TASKS_PER_WORKER =
        max 0 (100 - d / 10) + (1 - (load : ℝ) / 50) * 50) := by
  intro task counts l
  refine ⟨?_, ?_, ?_⟩
  · intro hall
    rcases selectFold_char task counts l { best := none, bestScore := -1 } with
      ⟨_, hfold⟩ | ⟨l1, w, l2, hdec, hw, _, _, _, _⟩
    · unfold selectBestWorkerOptimized
      rw [hfold]
    · refine absurd hw (not_lt.mpr (hall w ?_))
      rw [hdec]
      exact List.mem_append.mpr (Or.inr (List.mem_cons_self w l2))
  · intro wp0 hmem helig
    rcases selectFold_char task counts l { best := none, bestScore := -1 } with
      ⟨hall, _⟩ | ⟨l1, w, l2, hdec, hw, hlt, hfold, hub, hstrict⟩
    · exact absurd (hall wp0 hmem helig) (not_le.mpr (candScore_pos task counts wp0 helig))
    · refine ⟨l1, w, l2, hdec, hw, ?_, hub, hstrict⟩
      unfold selectBestWorkerOptimized
      rw [hfold]
  · intro d load
    simp [calculateWorkerScore, MAX_TASKS_PER_WORKER]

/-- Concrete candidate for the C5 witness. -/
def c5Candidates : List WorkerPoint :=
  [{ data := { id := "w1", lat := 1, lon := 1 }, distance := some 0 }]

/-- Concrete task for the C5 witness. -/
def c5Task : TaskRow :=
  { id := "t", lat := some 1, lon := some 1, status := .unassigned,
    assignedUserId := none, assignedAt := none, geocodePending := false }

/-- C5 witness: with the only candidate exactly at the load cap, selection
returns no worker. -/
theorem selectBestWorkerOptimized_spec_witness :
    selectBestWorkerOptimized c5Candidates (fun _ => 50) c5Task = none :=
  (selectBestWorkerOptimized_spec c5Task (fun _ => 50) c5Candidates).1
    (fun wp _ => by decide)

/-! ## Claim C6: cache fail-open -/

/-- C6: the allocation run is insensitive to the cache store.  For any two
cache states — in particular a fully unreachable store (an oracle that
fails every operation) versus a fully healthy one — the run returns
identical metrics: same `totalTasks`, `allocated`, `allocationFailed`,
`affectedWorkers`, `successRate`, `avgDistance` and `workerUtilization`.
Every cache helper called by the run catches its own errors and its
results are never consulted, so the model's run is total (it cannot
throw) and its metrics are a function of tasks, workers and table only. -/
theorem allocateTasksOptimized_cache_fail_open :
    ∀ (tasks : List TaskRow) (workers : List Worker) (db : List TaskRow) (now : ℕ)
      (cacheA cacheB : CacheState),
    (allocateTasksOptimized tasks workers db now cacheA).result =
      (allocateTasksOptimized tasks workers db now cacheB).result := by
  intro tasks workers db now cacheA cacheB
  unfold allocateTasksOptimized
  split <;> rfl

/-! ## Evaluation lemmas for the haversine formula -/

theorem atan2_pos_x (y x : ℝ) (h : 0 < x) : atan2 y x = Real.arctan (y / x) := by
  unfold atan2
  rw [if_pos h]

/-- For `0 ≤ A < 1`, the `atan2(√A, √(1−A))` of the haversine formula is
`arcsin √A`. -/
theorem atan2_sqrt_arcsin (A : ℝ) (h0 : 0 ≤ A) (h1 : A < 1) :
    atan2 (Real.sqrt A) (Real.sqrt (1 - A)) = Real.arcsin (Real.sqrt A) := by
  have hx : 0 < Real.sqrt (1 - A) := Real.sqrt_pos.mpr (by linarith)
  rw [atan2_pos_x _ _ hx]
  have hmem : Real.sqrt A ∈ Set.Ioo (-(1 : ℝ)) 1 := by
    constructor
    · exact lt_of_lt_of_le (by norm_num) (Real.sqrt_nonneg A)
    · calc Real.sqrt A < Real.sqrt 1 := Real.sqrt_lt_sqrt h0 h1
        _ = 1 := Real.sqrt_one
  have heq := Real.arcsin_eq_arctan hmem
  rw [Real.sq_sqrt h0] at heq
  exact heq.symm

/-- Closed form of `haversineDistance` through `arcsin`, given the value of
the intermediate `a`. -/
theorem haversine_arcsin (lat1 lon1 lat2 lon2 A : ℝ)
    (hA : Real.sin ((lat2 - lat1) * Real.pi / 180 / 2) ^ 2 +
        Real.cos (lat1 * Real.pi / 180) * Real.cos (lat2 * Real.pi / 180) *
          Real.sin ((lon2 - lon1) * Real.pi / 180 / 2) ^ 2 = A)
    (h0 : 0 ≤ A) (h1 : A < 1) :
    haversineDistance lat1 lon1 lat2 lon2 = 6371 * (2 * Real.arcsin (Real.sqrt A)) := by
  show (6371 : ℝ) *
      (2 * atan2
        (Real.sqrt (Real.sin ((lat2 - lat1) * Real.pi / 180 / 2) ^ 2 +
          Real.cos (lat1 * Real.pi / 180) * Real.cos (lat2 * Real.pi / 180) *
            Real.sin ((lon2 - lon1) * Real.pi / 180 / 2) ^ 2))
        (Real.sqrt (1 - (Real.sin ((lat2 - lat1) * Real.pi / 180 / 2) ^ 2 +
          Real.cos (lat1 * Real.pi / 180) * Real.cos (lat2 * Real.pi / 180) *
            Real.sin ((lon2 - lon1) * Real.pi / 180 / 2) ^ 2)))) =
    6371 * (2 * Real.arcsin (Real.sqrt A))
  rw [hA, atan2_sqrt_arcsin A h0 h1]

/-- The haversine distance from a point to itself is 0. -/
theorem haversineDistance_self (la lo : ℝ) : haversineDistance la lo la lo = 0 := by
  rw [haversine_arcsin la lo la lo 0 (by simp) (le_refl 0) (by norm_num)]
  simp [Real.sqrt_zero, Real.arcsin_zero]

/-- Exact distance for a pure-latitude displacement of 0.05° at longitude
1: the haversine collapses to `2·R·arcsin(sin(π/7200)) = 6371·π/3600`
(about 5.56 km). -/
theorem haversineDistance_latStep :
    haversineDistance (1/20 : ℝ) 1 (1/10) 1 = 6371 * Real.pi / 3600 := by
  have hlepi : Real.pi / 7200 ≤ Real.pi := div_le_self Real.pi_pos.le (by norm_num)
  have hs0 : 0 ≤ Real.sin (Real.pi / 7200) :=
    Real.sin_nonneg_of_nonneg_of_le_pi (by positivity) hlepi
  have hs1 : Real.sin (Real.pi / 7200) < 1 := by
    have h5 := Real.sin_lt (show 0 < Real.pi / 7200 by positivity)
    nlinarith [Real.pi_lt_d2]
  have hA : Real.sin (((1:ℝ)/10 - 1/20) * Real.pi / 180 / 2) ^ 2 +
      Real.cos ((1/20 : ℝ) * Real.pi / 180) * Real.cos ((1/10 : ℝ) * Real.pi / 180) *
        Real.sin (((1:ℝ) - 1) * Real.pi / 180 / 2) ^ 2 =
      Real.sin (Real.pi / 7200) ^ 2 := by
    have h2 : ((1:ℝ)/10 - 1/20) * Real.pi / 180 / 2 = Real.pi / 7200 := by ring
    have h3 : ((1:ℝ) - 1) * Real.pi / 180 / 2 = 0 := by ring
    rw [h2, h3, Real.sin_zero]
    ring
  have h1 : Real.sin (Real.pi / 7200) ^ 2 < 1 := by nlinarith
  rw [haversine_arcsin (1/20) 1 (1/10) 1 (Real.sin (Real.pi / 7200) ^ 2) hA (sq_nonneg _) h1,
    Real.sqrt_sq hs0,
    Real.arcsin_sin (by nlinarith [Real.pi_gt_three]) (by nlinarith [Real.pi_gt_three])]
  ring

theorem haversineDistance_latStep_pos : (0 : ℝ) < 6371 * Real.pi / 3600 := by positivity

theorem haversineDistance_latStep_le10 : 6371 * Real.pi / 3600 ≤ 10 := by
  nlinarith [Real.pi_lt_d2]

/-- At latitude 60° a pure-longitude displacement of 0.15° is within 10 km:
the haversine is `2·R·arcsin(½·sin(π/2400)) ≤ 2·R·(5/6371) = 10`. -/
theorem haversineDistance_highLat_le :
    haversineDistance (60 : ℝ) 0 60 (3/20) ≤ 10 := by
  have hlepi : Real.pi / 2400 ≤ Real.pi := div_le_self Real.pi_pos.le (by norm_num)
  have hs0 : 0 ≤ Real.sin (Real.pi / 2400) :=
    Real.sin_nonneg_of_nonneg_of_le_pi (by positivity) hlepi
  have hA : Real.sin (((60:ℝ) - 60) * Real.pi / 180 / 2) ^ 2 +
      Real.cos ((60 : ℝ) * Real.pi / 180) * Real.cos ((60 : ℝ) * Real.pi / 180) *
        Real.sin (((3:ℝ)/20 - 0) * Real.pi / 180 / 2) ^ 2 =
      Real.sin (Real.pi / 2400) ^ 2 / 4 := by
    have h2 : ((60:ℝ) - 60) * Real.pi / 180 / 2 = 0 := by ring
    have h3 : (60:ℝ) * Real.pi / 180 = Real.pi / 3 := by ring
    have h4 : ((3:ℝ)/20 - 0) * Real.pi / 180 / 2 = Real.pi / 2400 := by ring
    rw [h2, h3, h4, Real.sin_zero, Real.cos_pi_div_three]
    ring
  have h1 : Real.sin (Real.pi / 2400) ^ 2 / 4 < 1 := by
    nlinarith [Real.sin_le_one (Real.pi / 2400), Real.neg_one_le_sin (Real.pi / 2400)]
  rw [haversine_arcsin 60 0 60 (3/20) (Real.sin (Real.pi / 2400) ^ 2 / 4) hA (by positivity) h1]
  have hsq : Real.sqrt (Real.sin (Real.pi / 2400) ^ 2 / 4) = Real.sin (Real.pi / 2400) / 2 := by
    have hh : Real.sin (Real.pi / 2400) ^ 2 / 4 = (Real.sin (Real.pi / 2400) / 2) ^ 2 := by
      ring
    rw [hh, Real.sqrt_sq (by linarith)]
  rw [hsq]
  have hkey : Real.sin (Real.pi / 2400) / 2 ≤ Real.sin ((5 : ℝ) / 6371) := by
    have h5 := Real.sin_lt (show 0 < Real.pi / 2400 by positivity)
    have h7 := Real.sin_gt_sub_cube (show (0:ℝ) < 5/6371 by norm_num)
      (show (5:ℝ)/6371 ≤ 1 by norm_num)
    nlinarith [Real.pi_lt_d2]
  have harcsin : Real.arcsin (Real.sin (Real.pi / 2400) / 2) ≤ (5 : ℝ) / 6371 := by
    have hmono := Real.monotone_arcsin hkey
    rwa [Real.arcsin_sin (by nlinarith [Real.pi_gt_three]) (by nlinarith [Real.pi_gt_three])]
      at hmono
  linarith

/-! ## Cell-enumeration lemmas for the spatial index -/

theorem offsetRange_mem (g x : ℤ) :
    x ∈ offsetRange g ↔ 0 ≤ g ∧ -g ≤ x ∧ x ≤ g := by
  unfold offsetRange
  by_cases hg : g < 0
  · simp only [if_pos hg, List.not_mem_nil, false_iff]
    omega
  · simp only [if_neg hg, List.mem_map, List.mem_range]
    constructor
    · rintro ⟨i, hi, rfl⟩
      omega
    · rintro ⟨h1, h2, h3⟩
      exact ⟨(x + g).toNat, by omega, by omega⟩

theorem offsetRange_nodup (g : ℤ) : (offsetRange g).Nodup := by
  unfold offsetRange
  by_cases hg : g < 0
  · simp [if_pos hg]
  · rw [if_neg hg]
    refine List.Nodup.map ?_ (List.nodup_range _)
    intro a b hab
    have hab2 : -g + (a : ℤ) = -g + (b : ℤ) := hab
    omega

theorem getSearchCells_mem (lat lon radius : ℚ) (c : ℤ × ℤ) :
    c ∈ getSearchCells lat lon radius ↔
      0 ≤ ⌈radius / GRID_SIZE⌉ ∧
      -⌈radius / GRID_SIZE⌉ ≤ c.1 - ⌊lat / GRID_SIZE⌋ ∧
      c.1 - ⌊lat / GRID_SIZE⌋ ≤ ⌈radius / GRID_SIZE⌉ ∧
      -⌈radius / GRID_SIZE⌉ ≤ c.2 - ⌊lon / GRID_SIZE⌋ ∧
      c.2 - ⌊lon / GRID_SIZE⌋ ≤ ⌈radius / GRID_SIZE⌉ := by
  unfold getSearchCells
  simp only [List.mem_flatMap, List.mem_map]
  constructor
  · rintro ⟨i, hi, j, hj, rfl⟩
    rw [offsetRange_mem] at hi hj
    constructor
    · exact hi.1
    · dsimp only
      omega
  · rintro ⟨hg, h1, h2, h3, h4⟩
    refine ⟨c.1 - ⌊lat / GRID_SIZE⌋, ?_, c.2 - ⌊lon / GRID_SIZE⌋, ?_, ?_⟩
    · rw [offsetRange_mem]
      exact ⟨hg, h1, h2⟩
    · rw [offsetRange_mem]
      exact ⟨hg, h3, h4⟩
    · obtain ⟨c1, c2⟩ := c
      simp only [Prod.mk.injEq]
      constructor <;> omega

theorem getSearchCells_nodup (lat lon radius : ℚ) :
    (getSearchCells lat lon radius).Nodup := by
  unfold getSearchCells
  rw [List.nodup_flatMap]
  constructor
  · intro i _
    refine (offsetRange_nodup _).map ?_
    intro a b hab
    simp only [Prod.mk.injEq] at hab
    omega
  · refine (offsetRange_nodup _).imp ?_
    intro a b hne c hca hcb
    simp only [List.mem_map] at hca hcb
    obtain ⟨j1, _, h1⟩ := hca
    obtain ⟨j2, _, h2⟩ := hcb
    rw [← h2] at h1
    simp only [Prod.mk.injEq] at h1
    omega

theorem buildSpatialIndex_single (w : Worker) (h : w.lat ≠ 0 ∧ w.lon ≠ 0) :
    buildSpatialIndex [w] =
      [(getGridKey w.lat w.lon, [{ id := w.id, lat := w.lat, lon := w.lon, data := w }])] := by
  unfold buildSpatialIndex
  simp only [List.foldl_cons, List.foldl_nil, if_pos h]
  unfold indexInsert
  simp

theorem indexGet_single (key c : ℤ × ℤ) (B : List SpatialPoint) :
    indexGet [(key, B)] c = if c = key then B else [] := by
  unfold indexGet
  by_cases h : c = key
  · subst h
    simp
  · rw [if_neg h]
    have hd : (decide ((key, B).1 = c)) = false := by
      simp only [decide_eq_false_iff_not]
      exact fun hh => h hh.symm
    simp [List.find?_cons, hd]

theorem flatMap_single_miss (cells : List (ℤ × ℤ)) (key : ℤ × ℤ) (B : List SpatialPoint)
    (h : key ∉ cells) :
    cells.flatMap (indexGet [(key, B)]) = [] := by
  induction cells with
  | nil => rfl
  | cons c cs ih =>
    rw [List.flatMap_cons]
    have hc : c ≠ key := fun hh => h (hh ▸ List.mem_cons_self c cs)
    rw [indexGet_single, if_neg hc, List.nil_append]
    exact ih fun hh => h (List.mem_cons_of_mem c hh)

theorem flatMap_single_hit (cells : List (ℤ × ℤ)) (key : ℤ × ℤ) (B : List SpatialPoint)
    (hnd : cells.Nodup) (hmem : key ∈ cells) :
    cells.flatMap (indexGet [(key, B)]) = B := by
  induction cells with
  | nil => exact absurd hmem (List.not_mem_nil key)
  | cons c cs ih =>
    rw [List.flatMap_cons]
    rcases List.mem_cons.mp hmem with rfl | hmem2
    · rw [indexGet_single, if_pos rfl,
        flatMap_single_miss cs key B (List.nodup_cons.mp hnd).1, List.append_nil]
    · have hc : c ≠ key := fun hh => (List.nodup_cons.mp hnd).1 (hh ▸ hmem2)
      rw [indexGet_single, if_neg hc, List.nil_append]
      exact ih (List.nodup_cons.mp hnd).2 hmem2

/-- Candidate collection over an index holding exactly one worker: the
worker's point iff its grid cell lies in the searched square. -/
theorem spatialCandidates_single (w : Worker) (hw : w.lat ≠ 0 ∧ w.lon ≠ 0)
    (lat lon r : ℚ) :
    spatialCandidates (buildSpatialIndex [w]) lat lon r =
      if getGridKey w.lat w.lon ∈ getSearchCells lat lon (r / 111)
      then [{ id := w.id, lat := w.lat, lon := w.lon, data := w }] else [] := by
  unfold spatialCandidates
  rw [buildSpatialIndex_single w hw]
  by_cases hm : getGridKey w.lat w.lon ∈ getSearchCells lat lon (r / 111)
  · rw [if_pos hm]
    exact flatMap_single_hit _ _ _ (getSearchCells_nodup _ _ _) hm
  · rw [if_neg hm]
    exact flatMap_single_miss _ _ _ hm

/-! ## Claim C4: spatial-index radius query -/

/-- Worker at latitude 60°, longitude 0.15° — a true match for a 10 km
query at (60, 0) that the grid search misses. -/
def w60 : Worker := { id := "w60", lat := 60, lon := 3/20 }

/-- The indexed point of `w60`. -/
def pt60 : SpatialPoint := { id := "w60", lat := 60, lon := 3/20, data := w60 }

theorem getGridKey_w60 : getGridKey (60 : ℚ) (3/20) = (6000, 15) := by
  unfold getGridKey GRID_SIZE
  rw [show (60:ℚ) / (1/100) = 6000 by norm_num,
    show ((3:ℚ)/20) / (1/100) = 15 by norm_num]
  norm_num

theorem searchCeil_10 : (⌈((10:ℚ) / 111) / GRID_SIZE⌉ : ℤ) = 10 := by
  unfold GRID_SIZE
  rw [show ((10:ℚ)/111) / (1/100) = 1000/111 by norm_num, Int.ceil_eq_iff]
  constructor <;> norm_num

/-- The cell of `w60` is outside the square searched from (60, 0): its
longitude cell index 15 exceeds the margin of 10 cells. -/
theorem w60_cell_not_searched : (6000, 15) ∉ getSearchCells 60 0 (10 / 111 : ℚ) := by
  intro hmem
  rw [getSearchCells_mem] at hmem
  rw [searchCeil_10, show (⌊(0:ℚ) / GRID_SIZE⌋ : ℤ) = 0 by unfold GRID_SIZE; norm_num] at hmem
  obtain ⟨_, _, _, _, h5⟩ := hmem
  omega

/-- Soundness half of the filter: everything it keeps passed the exact
distance test and came from the searched buckets. -/
theorem distFilter_sound (taskLat taskLon radiusKm : ℚ) :
    ∀ (l : List SpatialPoint) (p : SpatialPoint), p ∈ distFilter taskLat taskLon radiusKm l →
    haversineDistance (taskLat : ℝ) (taskLon : ℝ) (p.lat : ℝ) (p.lon : ℝ) ≤ (radiusKm : ℝ) ∧
      p ∈ l := by
  intro l
  induction l with
  | nil =>
    intro p hp
    exact absurd hp (by rw [distFilter]; simp)
  | cons q rest ih =>
    intro p hp
    rw [distFilter] at hp
    split at hp
    · rename_i hq
      rcases List.mem_cons.mp hp with rfl | hp2
      · exact ⟨hq, List.mem_cons_self p rest⟩
      · exact ⟨(ih p hp2).1, List.mem_cons_of_mem q (ih p hp2).2⟩
    · exact ⟨(ih p hp).1, List.mem_cons_of_mem q (ih p hp).2⟩

/-- C4 counterexample: the index built from the single worker `w60` does
contain it — its bucket is the cell (6000, 15) — and its great-circle
distance to the query point (60, 0) is within the 10 km radius, yet
`findNearbyWorkers` at (60, 0) with radius 10 returns the empty list: the
cell margin `ceil((10/111)/0.01) = 10` is too narrow for longitude at this
latitude, so the query misses a true match. -/
theorem findNearbyWorkers_misses_true_match :
    findNearbyWorkers (buildSpatialIndex [w60]) 60 0 10 = [] ∧
    indexGet (buildSpatialIndex [w60]) (6000, 15) = [pt60] ∧
    haversineDistance ((60 : ℚ) : ℝ) ((0 : ℚ) : ℝ) ((w60.lat : ℚ) : ℝ) ((w60.lon : ℚ) : ℝ) ≤
      ((10 : ℚ) : ℝ) := by
  have hw : w60.lat ≠ 0 ∧ w60.lon ≠ 0 := by
    constructor <;> norm_num [w60]
  refine ⟨?_, ?_, ?_⟩
  · unfold findNearbyWorkers
    rw [spatialCandidates_single w60 hw 60 0 10]
    rw [if_neg (by
      show getGridKey w60.lat w60.lon ∉ getSearchCells 60 0 (10 / 111 : ℚ)
      have : getGridKey w60.lat w60.lon = (6000, 15) := getGridKey_w60
      rw [this]
      exact w60_cell_not_searched)]
    rw [distFilter]
  · rw [buildSpatialIndex_single w60 hw, indexGet_single]
    have hkey : getGridKey w60.lat w60.lon = (6000, 15) := getGridKey_w60
    rw [hkey, if_pos rfl]
    rfl
  · have hw1 : ((w60.lat : ℚ) : ℝ) = 60 := by norm_num [w60]
    have hw2 : ((w60.lon : ℚ) : ℝ) = 3/20 := by norm_num [w60]
    rw [hw1, hw2]
    push_cast
    exact haversineDistance_highLat_le

/-- C4 (amended): the radius query may miss true matches (the cell margin
`radius/111` degrees is too narrow for longitude away from the equator),
but every worker it returns has passed the exact great-circle distance
filter applied internally — it is within `radiusKm` of the query point —
and was drawn from the searched grid buckets. -/
theorem findNearbyWorkers_sound :
    ∀ (idx : SIndex) (taskLat taskLon radiusKm : ℚ) (p : SpatialPoint),
    p ∈ findNearbyWorkers idx taskLat taskLon radiusKm →
    haversineDistance (taskLat : ℝ) (taskLon : ℝ) (p.lat : ℝ) (p.lon : ℝ) ≤ (radiusKm : ℝ) ∧
      p ∈ spatialCandidates idx taskLat taskLon radiusKm := by
  intro idx taskLat taskLon radiusKm p hp
  exact distFilter_sound taskLat taskLon radiusKm _ p hp

/-- Worker at (2, 3) for the C4 witness. -/
def w23 : Worker := { id := "wA", lat := 2, lon := 3 }

/-- The indexed point of `w23`. -/
def pt23 : SpatialPoint := { id := "wA", lat := 2, lon := 3, data := w23 }

theorem getGridKey_w23 : getGridKey (2 : ℚ) 3 = (200, 300) := by
  unfold getGridKey GRID_SIZE
  rw [show (2:ℚ) / (1/100) = 200 by norm_num, show (3:ℚ) / (1/100) = 300 by norm_num]
  norm_num

theorem w23_cell_searched : (200, 300) ∈ getSearchCells 2 3 (10 / 111 : ℚ) := by
  rw [getSearchCells_mem, searchCeil_10,
    show (⌊(2:ℚ) / GRID_SIZE⌋ : ℤ) = 200 by
      unfold GRID_SIZE
      rw [show (2:ℚ) / (1/100) = 200 by norm_num]
      norm_num,
    show (⌊(3:ℚ) / GRID_SIZE⌋ : ℤ) = 300 by
      unfold GRID_SIZE
      rw [show (3:ℚ) / (1/100) = 300 by norm_num]
      norm_num]
  refine ⟨by norm_num, ?_, ?_, ?_, ?_⟩ <;> norm_num

theorem findNearbyWorkers_w23 :
    findNearbyWorkers (buildSpatialIndex [w23]) 2 3 10 = [pt23] := by
  have hw : w23.lat ≠ 0 ∧ w23.lon ≠ 0 := by
    constructor <;> norm_num [w23]
  unfold findNearbyWorkers
  rw [spatialCandidates_single w23 hw 2 3 10]
  rw [if_pos (by
    have hkey : getGridKey w23.lat w23.lon = (200, 300) := getGridKey_w23
    rw [hkey]
    exact w23_cell_searched)]
  rw [distFilter, if_pos (by
    show haversineDistance ((2 : ℚ) : ℝ) ((3 : ℚ) : ℝ) ((w23.lat : ℚ) : ℝ)
        ((w23.lon : ℚ) : ℝ) ≤ ((10 : ℚ) : ℝ)
    have h1 : ((w23.lat : ℚ) : ℝ) = ((2 : ℚ) : ℝ) := by norm_num [w23]
    have h2 : ((w23.lon : ℚ) : ℝ) = ((3 : ℚ) : ℝ) := by norm_num [w23]
    rw [h1, h2, haversineDistance_self]
    push_cast
    norm_num), distFilter]
  rfl

/-- C4 witness: a worker at the query point itself is returned by the
query; the soundness theorem applied to it yields its distance bound and
bucket membership. -/
theorem findNearbyWorkers_sound_witness :
    haversineDistance ((2 : ℚ) : ℝ) ((3 : ℚ) : ℝ) ((pt23.lat : ℚ) : ℝ) ((pt23.lon : ℚ) : ℝ) ≤
      ((10 : ℚ) : ℝ) ∧
    pt23 ∈ spatialCandidates (buildSpatialIndex [w23]) 2 3 10 :=
  findNearbyWorkers_sound (buildSpatialIndex [w23]) 2 3 10 pt23
    (by rw [findNearbyWorkers_w23]; exact List.mem_cons_self pt23 [])

/-! ## Claim C10: truthiness test on coordinates -/

/-- JavaScript truthiness of a nullable numeric coordinate: `null`,
`undefined` and `0` are all falsy. -/
def coordTruthy : Option ℚ → Bool
  | none => false
  | some x => decide (x ≠ 0)

theorem indexGet_indexInsert_mem (idx : SIndex) (k key : ℤ × ℤ) (q p : SpatialPoint)
    (hp : p ∈ indexGet (indexInsert idx k q) key) : p ∈ indexGet idx key ∨ p = q := by
  unfold indexInsert at hp
  split at hp
  · unfold indexGet at hp ⊢
    rw [List.find?_map] at hp
    have hpf : ((fun e => decide (e.1 = key)) ∘
        fun (e : (ℤ × ℤ) × List SpatialPoint) => if e.1 = k then (e.1, e.2 ++ [q]) else e) =
        fun e => decide (e.1 = key) := by
      funext e
      by_cases he : e.1 = k <;> simp [he]
    rw [hpf] at hp
    cases hfind : idx.find? fun e => decide (e.1 = key) with
    | none =>
      rw [hfind] at hp
      simp at hp
    | some e =>
      rw [hfind] at hp
      by_cases he : e.1 = k
      · have hp2 : p ∈ e.2 ++ [q] := by
          have hq : (if e.1 = k then (e.1, e.2 ++ [q]) else e) = (e.1, e.2 ++ [q]) := if_pos he
          simpa [hq] using hp
        rcases List.mem_append.mp hp2 with h1 | h2
        · left
          simpa using h1
        · right
          simpa using h2
      · have hp2 : p ∈ e.2 := by
          have hq : (if e.1 = k then (e.1, e.2 ++ [q]) else e) = e := if_neg he
          simpa [hq] using hp
        left
        simpa using hp2
  · unfold indexGet at hp ⊢
    rw [List.find?_append] at hp
    cases hfind : idx.find? fun e => decide (e.1 = key) with
    | some e =>
      rw [hfind] at hp
      simp only [Option.or] at hp
      left
      simpa using hp
    | none =>
      rw [hfind] at hp
      by_cases hk : k = key
      · right
        simp [Option.or, List.find?_cons, hk] at hp
        exact hp
      · exfalso
        have hd : (decide (((k, [q]) : (ℤ × ℤ) × List SpatialPoint).1 = key)) = false := by
          simp [hk]
        simp [Option.or, List.find?_cons, hd] at hp

/-- Provenance of every indexed point: it comes from a worker of the input
list that passed the truthiness test (both coordinates nonzero). -/
theorem buildSpatialIndex_mem (workers : List Worker) (key : ℤ × ℤ) (p : SpatialPoint)
    (hp : p ∈ indexGet (buildSpatialIndex workers) key) :
    ∃ w ∈ workers, (w.lat ≠ 0 ∧ w.lon ≠ 0) ∧
      p = { id := w.id, lat := w.lat, lon := w.lon, data := w } := by
  have main : ∀ (ws : List Worker) (idx0 : SIndex),
      p ∈ indexGet (ws.foldl
        (fun idx w =>
          if w.lat ≠ 0 ∧ w.lon ≠ 0 then
            indexInsert idx (getGridKey w.lat w.lon)
              { id := w.id, lat := w.lat, lon := w.lon, data := w }
          else idx) idx0) key →
      p ∈ indexGet idx0 key ∨ ∃ w ∈ ws, (w.lat ≠ 0 ∧ w.lon ≠ 0) ∧
        p = { id := w.id, lat := w.lat, lon := w.lon, data := w } := by
    intro ws
    induction ws with
    | nil =>
      intro idx0 h
      exact Or.inl h
    | cons w ws2 ih =>
      intro idx0 h
      rw [List.foldl_cons] at h
      rcases ih _ h with hin | ⟨w2, hmem, ht, rfl⟩
      · by_cases hw : w.lat ≠ 0 ∧ w.lon ≠ 0
        · rw [if_pos hw] at hin
          rcases indexGet_indexInsert_mem idx0 _ key _ p hin with h1 | h2
          · exact Or.inl h1
          · exact Or.inr ⟨w, List.mem_cons_self w ws2, hw, h2⟩
        · rw [if_neg hw] at hin
          exact Or.inl hin
      · exact Or.inr ⟨w2, List.mem_cons_of_mem w hmem, ht, rfl⟩
  have h := main workers [] hp
  rcases h with hin | hGood
  · exact absurd hin (by simp [indexGet])
  · exact hGood

/-- The worker returned by the selection loop is the `data` of one of the
candidate points. -/
theorem selectBestWorkerOptimized_mem (l : List WorkerPoint) (counts : String → ℕ)
    (task : TaskRow) (w : Worker) (d : Option ℝ)
    (h : selectBestWorkerOptimized l counts task = some (w, d)) :
    ∃ wp ∈ l, wp.data = w := by
  rcases selectFold_char task counts l { best := none, bestScore := -1 } with
    ⟨_, hfold⟩ | ⟨l1, wq, l2, hdec, _, _, hfold, _, _⟩
  · unfold selectBestWorkerOptimized at h
    rw [hfold] at h
    exact absurd h (by simp)
  · unfold selectBestWorkerOptimized at h
    rw [hfold] at h
    simp only [Option.some.injEq, Prod.mk.injEq] at h
    refine ⟨wq, ?_, h.1⟩
    rw [hdec]
    exact List.mem_append.mpr (Or.inr (List.mem_cons_self wq l2))

/-- A task with a falsy (`null` or exactly-0) coordinate fails immediately:
the failure counter increments and nothing else changes — in particular
the spatial index is not queried (no ghost-log entry) and no allocation is
proposed. -/
theorem proposeStep_untruthy (idx : SIndex) (counts : String → ℕ) (st : ProposeState)
    (task : TaskRow)
    (h : ¬(coordTruthy task.lat = true ∧ coordTruthy task.lon = true)) :
    proposeStep idx counts st task =
      { st with allocationFailedCount := st.allocationFailedCount + 1 } := by
  cases hlat : task.lat with
  | none => simp [proposeStep, hlat]
  | some x =>
    cases hlon : task.lon with
    | none => simp [proposeStep, hlat, hlon]
    | some y =>
      have hz : x = 0 ∨ y = 0 := by
        rcases Decidable.not_and_iff_or_not.mp h with h1 | h1
        · left
          by_contra hx
          exact h1 (by simp [coordTruthy, hlat, hx])
        · right
          by_contra hy
          exact h1 (by simp [coordTruthy, hlon, hy])
      simp only [proposeStep, hlat, hlon]
      rw [if_pos hz]

/-- Reduction of the proposal step for a task with truthy coordinates. -/
theorem proposeStep_truthy (idx : SIndex) (counts : String → ℕ) (st : ProposeState)
    (task : TaskRow) (x y : ℚ)
    (hlat : task.lat = some x) (hlon : task.lon = some y) (hx : ¬x = 0) (hy : ¬y = 0) :
    proposeStep idx counts st task =
      (let nearby := findNearbyWorkers idx x y MAX_ALLOCATION_RADIUS
       let nearbyPoints : List WorkerPoint :=
         nearby.map fun sp => { data := sp.data, distance := none }
       let st1 : ProposeState := { st with queried := st.queried ++ [task.id] }
       if nearby.length = 0 then
         { st1 with allocationFailedCount := st1.allocationFailedCount + 1 }
       else
         match selectBestWorkerOptimized nearbyPoints counts task with
         | some wd =>
           { st1 with allocations := st1.allocations ++
               [{ taskId := task.id, workerId := wd.1.id, distance := wd.2 }] }
         | none => { st1 with allocationFailedCount := st1.allocationFailedCount + 1 }) := by
  simp only [proposeStep, hlat, hlon]
  rw [if_neg (by tauto)]

theorem proposeStep_allocations (idx : SIndex) (counts : String → ℕ) (st : ProposeState)
    (task : TaskRow) :
    (proposeStep idx counts st task).allocations = st.allocations ∨
    ∃ x y w d, task.lat = some x ∧ task.lon = some y ∧ ¬x = 0 ∧ ¬y = 0 ∧
      selectBestWorkerOptimized
        ((findNearbyWorkers idx x y MAX_ALLOCATION_RADIUS).map
          fun sp => { data := sp.data, distance := none }) counts task = some (w, d) ∧
      (proposeStep idx counts st task).allocations =
        st.allocations ++ [{ taskId := task.id, workerId := w.id, distance := d }] := by
  by_cases h : coordTruthy task.lat = true ∧ coordTruthy task.lon = true
  · obtain ⟨hl, hn⟩ := h
    cases hlat : task.lat with
    | none => rw [hlat] at hl; exact absurd hl (by simp [coordTruthy])
    | some x =>
      cases hlon : task.lon with
      | none => rw [hlon] at hn; exact absurd hn (by simp [coordTruthy])
      | some y =>
        have hx : ¬x = 0 := by
          rw [hlat] at hl
          simpa [coordTruthy] using hl
        have hy : ¬y = 0 := by
          rw [hlon] at hn
          simpa [coordTruthy] using hn
        rw [proposeStep_truthy idx counts st task x y hlat hlon hx hy]
        by_cases hnear : (findNearbyWorkers idx x y MAX_ALLOCATION_RADIUS).length = 0
        · left
          simp only [if_pos hnear]
        · simp only [if_neg hnear]
          cases hsel : selectBestWorkerOptimized
              ((findNearbyWorkers idx x y MAX_ALLOCATION_RADIUS).map
                fun sp => { data := sp.data, distance := none }) counts task with
          | none => left; rfl
          | some wd =>
            right
            exact ⟨x, y, wd.1, wd.2, rfl, rfl, hx, hy, by rw [hsel], rfl⟩
  · left
    rw [proposeStep_untruthy idx counts st task h]

theorem proposeStep_failed_mono (idx : SIndex) (counts : String → ℕ) (st : ProposeState)
    (task : TaskRow) :
    st.allocationFailedCount ≤ (proposeStep idx counts st task).allocationFailedCount := by
  by_cases h : coordTruthy task.lat = true ∧ coordTruthy task.lon = true
  · obtain ⟨hl, hn⟩ := h
    cases hlat : task.lat with
    | none => rw [hlat] at hl; exact absurd hl (by simp [coordTruthy])
    | some x =>
      cases hlon : task.lon with
      | none => rw [hlon] at hn; exact absurd hn (by simp [coordTruthy])
      | some y =>
        have hx : ¬x = 0 := by
          rw [hlat] at hl
          simpa [coordTruthy] using hl
        have hy : ¬y = 0 := by
          rw [hlon] at hn
          simpa [coordTruthy] using hn
        rw [proposeStep_truthy idx counts st task x y hlat hlon hx hy]
        by_cases hnear : (findNearbyWorkers idx x y MAX_ALLOCATION_RADIUS).length = 0
        · simp only [if_pos hnear]
          omega
        · simp only [if_neg hnear]
          cases hsel : selectBestWorkerOptimized
              ((findNearbyWorkers idx x y MAX_ALLOCATION_RADIUS).map
                fun sp => { data := sp.data, distance := none }) counts task with
          | none => exact Nat.le_succ _
          | some wd => exact le_refl _
  · rw [proposeStep_untruthy idx counts st task h]
    exact Nat.le_succ _

theorem proposeStep_queried (idx : SIndex) (counts : String → ℕ) (st : ProposeState)
    (task : TaskRow) :
    (proposeStep idx counts st task).queried = st.queried ∨
    ((proposeStep idx counts st task).queried = st.queried ++ [task.id] ∧
      coordTruthy task.lat = true ∧ coordTruthy task.lon = true) := by
  by_cases h : coordTruthy task.lat = true ∧ coordTruthy task.lon = true
  · obtain ⟨hl, hn⟩ := h
    cases hlat : task.lat with
    | none => rw [hlat] at hl; exact absurd hl (by simp [coordTruthy])
    | some x =>
      cases hlon : task.lon with
      | none => rw [hlon] at hn; exact absurd hn (by simp [coordTruthy])
      | some y =>
        have hx : ¬x = 0 := by
          rw [hlat] at hl
          simpa [coordTruthy] using hl
        have hy : ¬y = 0 := by
          rw [hlon] at hn
          simpa [coordTruthy] using hn
        rw [proposeStep_truthy idx counts st task x y hlat hlon hx hy]
        by_cases hnear : (findNearbyWorkers idx x y MAX_ALLOCATION_RADIUS).length = 0
        · right
          simp only [if_pos hnear]
          refine ⟨by simp, hlat ▸ hl, hlon ▸ hn⟩
        · simp only [if_neg hnear]
          cases hsel : selectBestWorkerOptimized
              ((findNearbyWorkers idx x y MAX_ALLOCATION_RADIUS).map
                fun sp => { data := sp.data, distance := none }) counts task with
          | none => exact Or.inr ⟨rfl, hlat ▸ hl, hlon ▸ hn⟩
          | some wd => exact Or.inr ⟨rfl, hlat ▸ hl, hlon ▸ hn⟩
  · rw [proposeStep_untruthy idx counts st task h]
    exact Or.inl rfl

/-- Invariant of the whole proposal loop, generalized over the starting
state: every produced allocation either was already present or belongs to
a truthy-coordinate task and names a worker drawn from the index; the
failure counter absorbs one failure per falsy-coordinate task; every
index query belongs to a truthy-coordinate task. -/
theorem proposeLoop_invariant (idx : SIndex) (counts : String → ℕ) :
    ∀ (tasks : List TaskRow) (st : ProposeState),
    (∀ a ∈ (tasks.foldl (proposeStep idx counts) st).allocations,
      a ∈ st.allocations ∨ ∃ t ∈ tasks, t.id = a.taskId ∧
        coordTruthy t.lat = true ∧ coordTruthy t.lon = true ∧
        ∃ key, ∃ p ∈ indexGet idx key, p.data.id = a.workerId) ∧
    (st.allocationFailedCount +
        (tasks.filter fun t => !(coordTruthy t.lat && coordTruthy t.lon)).length ≤
      (tasks.foldl (proposeStep idx counts) st).allocationFailedCount) ∧
    (∀ tid ∈ (tasks.foldl (proposeStep idx counts) st).queried,
      tid ∈ st.queried ∨ ∃ t ∈ tasks, t.id = tid ∧
        coordTruthy t.lat = true ∧ coordTruthy t.lon = true) := by
  intro tasks
  induction tasks with
  | nil =>
    intro st
    refine ⟨fun a ha => Or.inl ha, by simp, fun tid h => Or.inl h⟩
  | cons t ts ih =>
    intro st
    obtain ⟨ih1, ih2, ih3⟩ := ih (proposeStep idx counts st t)
    rw [List.foldl_cons]
    refine ⟨?_, ?_, ?_⟩
    · intro a ha
      rcases ih1 a ha with hstep | ⟨t2, hmem, hgood⟩
      · rcases proposeStep_allocations idx counts st t with heq | ⟨x, y, w, d, hlat, hlon, hx, hy, hsel, heq⟩
        · rw [heq] at hstep
          exact Or.inl hstep
        · rw [heq] at hstep
          rcases List.mem_append.mp hstep with h1 | h2
          · exact Or.inl h1
          · right
            have ha2 : a = { taskId := t.id, workerId := w.id, distance := d } := by
              simpa using h2
            obtain ⟨wp, hwp, hdata⟩ := selectBestWorkerOptimized_mem _ counts t w d hsel
            obtain ⟨sp, hsp, hwpeq⟩ := List.mem_map.mp hwp
            obtain ⟨_, hcand⟩ := distFilter_sound x y MAX_ALLOCATION_RADIUS _ sp hsp
            obtain ⟨cell, hcell, hspin⟩ := List.mem_flatMap.mp hcand
            refine ⟨t, List.mem_cons_self t ts, by rw [ha2], ?_, ?_, cell, sp, hspin, ?_⟩
            · simp [coordTruthy, hlat, hx]
            · simp [coordTruthy, hlon, hy]
            · rw [ha2]
              show sp.data.id = w.id
              rw [show sp.data = wp.data from by rw [← hwpeq], hdata]
      · exact Or.inr ⟨t2, List.mem_cons_of_mem t hmem, hgood⟩
    · by_cases hu : coordTruthy t.lat = true ∧ coordTruthy t.lon = true
      · rw [List.filter_cons_of_neg (by simp [hu.1, hu.2])]
        have hmono := proposeStep_failed_mono idx counts st t
        omega
      · rw [List.filter_cons_of_pos (by
          rcases Decidable.not_and_iff_or_not.mp hu with h1 | h1 <;> simp [h1] <;>
            simp [Bool.not_eq_true] at h1 <;> simp [h1])]
        rw [proposeStep_untruthy idx counts st t hu]
        rw [proposeStep_untruthy idx counts st t hu] at ih2
        have ih2b : (st.allocationFailedCount + 1) +
            (ts.filter fun t => !(coordTruthy t.lat && coordTruthy t.lon)).length ≤
            (ts.foldl (proposeStep idx counts)
              { st with allocationFailedCount := st.allocationFailedCount + 1 }).allocationFailedCount :=
          ih2
        simp only [List.length_cons]
        omega
    · intro tid h
      rcases ih3 tid h with hstep | ⟨t2, hmem, hgood⟩
      · rcases proposeStep_queried idx counts st t with heq | ⟨heq, hl, hn⟩
        · rw [heq] at hstep
          exact Or.inl hstep
        · rw [heq] at hstep
          rcases List.mem_append.mp hstep with h1 | h2
          · exact Or.inl h1
          · right
            have htid : tid = t.id := by simpa using h2
            exact ⟨t, List.mem_cons_self t ts, htid.symm, hl, hn⟩
      · exact Or.inr ⟨t2, List.mem_cons_of_mem t hmem, hgood⟩

/-- C10: coordinates are tested by truthiness, so the valid value 0 is
treated like a missing coordinate.  (i) Every point held by the spatial
index has both coordinates nonzero, so a worker whose latitude or
longitude is exactly 0 is excluded from the index; (ii) with
pairwise-distinct worker ids such a worker is never proposed any
allocation; (iii) a task with a 0 (or null) coordinate makes the proposal
step increment only the failure counter — the index is not queried and no
allocation is proposed; (iv) over a whole run the failure count is at
least the number of falsy-coordinate tasks, and every proposed allocation
and every index query belongs to a task with truthy coordinates. -/
theorem zeroCoordinate_truthiness_spec :
    (∀ (workers : List Worker) (key : ℤ × ℤ) (p : SpatialPoint),
      p ∈ indexGet (buildSpatialIndex workers) key → p.lat ≠ 0 ∧ p.lon ≠ 0) ∧
    (∀ (workers : List Worker) (counts : String → ℕ) (tasks : List TaskRow) (w : Worker),
      (workers.map fun x => x.id).Nodup → w ∈ workers → w.lat = 0 ∨ w.lon = 0 →
      ∀ a ∈ (proposeAllocations (buildSpatialIndex workers) counts tasks).allocations,
        a.workerId ≠ w.id) ∧
    (∀ (idx : SIndex) (counts : String → ℕ) (st : ProposeState) (task : TaskRow),
      ¬(coordTruthy task.lat = true ∧ coordTruthy task.lon = true) →
      proposeStep idx counts st task =
        { st with allocationFailedCount := st.allocationFailedCount + 1 }) ∧
    (∀ (idx : SIndex) (counts : String → ℕ) (tasks : List TaskRow),
      (tasks.filter fun t => !(coordTruthy t.lat && coordTruthy t.lon)).length ≤
        (proposeAllocations idx counts tasks).allocationFailedCount ∧
      (∀ a ∈ (proposeAllocations idx counts tasks).allocations,
        ∃ t ∈ tasks, t.id = a.taskId ∧ coordTruthy t.lat = true ∧ coordTruthy t.lon = true) ∧
      (∀ tid ∈ (proposeAllocations idx counts tasks).queried,
        ∃ t ∈ tasks, t.id = tid ∧ coordTruthy t.lat = true ∧ coordTruthy t.lon = true)) := by
  refine ⟨?_, ?_, ?_, ?_⟩
  · intro workers key p hp
    obtain ⟨w, _, hw, rfl⟩ := buildSpatialIndex_mem workers key p hp
    exact hw
  · intro workers counts tasks w hnd hwmem hzero a ha heq
    obtain ⟨inv1, _, _⟩ := proposeLoop_invariant (buildSpatialIndex workers) counts tasks
      { allocations := [], allocationFailedCount := 0, queried := [] }
    rcases inv1 a ha with hin | ⟨t, _, _, _, _, key, p, hpin, hpid⟩
    · exact absurd hin (List.not_mem_nil a)
    · obtain ⟨w2, hw2mem, hw2t, rfl⟩ := buildSpatialIndex_mem workers key p hpin
      have hid : w2.id = w.id := by
        have h1 : w2.id = a.workerId := hpid
        exact h1.trans heq
      have : w2 = w := List.inj_on_of_nodup_map hnd hw2mem hwmem hid
      rcases hzero with h0 | h0
      · exact hw2t.1 (this ▸ h0)
      · exact hw2t.2 (this ▸ h0)
  · intro idx counts st task h
    exact proposeStep_untruthy idx counts st task h
  · intro idx counts tasks
    obtain ⟨inv1, inv2, inv3⟩ := proposeLoop_invariant idx counts tasks
      { allocations := [], allocationFailedCount := 0, queried := [] }
    refine ⟨by simpa using inv2, ?_, ?_⟩
    · intro a ha
      rcases inv1 a ha with hin | ⟨t, hmem, h1, h2, h3, _⟩
      · exact absurd hin (List.not_mem_nil a)
      · exact ⟨t, hmem, h1, h2, h3⟩
    · intro tid h
      rcases inv3 tid h with hin | hgood
      · exact absurd hin (List.not_mem_nil tid)
      · exact hgood

/-- A worker with latitude exactly 0 (a valid coordinate on the equator). -/
def wz : Worker := { id := "wz", lat := 0, lon := 5 }

theorem buildSpatialIndex_wz_w23 :
    buildSpatialIndex [wz, w23] = buildSpatialIndex [w23] := by
  unfold buildSpatialIndex
  simp only [List.foldl_cons, List.foldl_nil]
  have hwz : (if wz.lat ≠ 0 ∧ wz.lon ≠ 0 then
      indexInsert [] (getGridKey wz.lat wz.lon)
        { id := wz.id, lat := wz.lat, lon := wz.lon, data := wz }
    else []) = ([] : SIndex) := by
    rw [if_neg]
    norm_num [wz]
  rw [hwz]

/-- C10 witness: in an index built from a zero-latitude worker and a
normal worker, the bucket holding the normal worker's point witnesses
part (i): its coordinates are nonzero (the zero-latitude worker was
skipped by the truthiness test). -/
theorem zeroCoordinate_truthiness_spec_witness :
    pt23.lat ≠ 0 ∧ pt23.lon ≠ 0 :=
  zeroCoordinate_truthiness_spec.1 [wz, w23] (200, 300) pt23 (by
    rw [buildSpatialIndex_wz_w23,
      buildSpatialIndex_single w23 (by constructor <;> norm_num [w23]), indexGet_single]
    have hkey : getGridKey w23.lat w23.lon = (200, 300) := getGridKey_w23
    rw [hkey, if_pos rfl]
    show pt23 ∈ [pt23]
    exact List.mem_cons_self pt23 [])

/-! ## Run-evaluation driver for `allocateTasksOptimized` -/

/-- The committed subset is a subset of the proposed list: the
`allocationMap` lookup only ever returns proposals. -/
theorem mem_of_filterMap_lookup (ids : List String) (allocs : List Allocation)
    (a : Allocation) (h : a ∈ ids.filterMap (allocationLookup allocs)) : a ∈ allocs := by
  obtain ⟨tid, _, hl⟩ := List.mem_filterMap.mp h
  have := List.mem_of_find?_eq_some hl
  exact List.mem_reverse.mp this

/-- Projections of a non-degenerate allocation run, expressed through the
named intermediate results. -/
theorem allocateTasksOptimized_main (tasks : List TaskRow) (workers : List Worker)
    (db : List TaskRow) (now : ℕ) (cache0 : CacheState)
    (hne : ¬(tasks.length = 0 ∨ workers.length = 0))
    (prop : ProposeState)
    (hprop : proposeAllocations (buildSpatialIndex workers)
      (getWorkerTaskCountsBatch (workers.map fun w => w.id) db) tasks = prop)
    (committed : List String × List TaskRow)
    (hcom : (if 0 < prop.allocations.length
      then bulkUpdateTaskAllocations now prop.allocations db else ([], db)) = committed)
    (succ : List Allocation)
    (hsucc : committed.1.filterMap (allocationLookup prop.allocations) = succ) :
    (allocateTasksOptimized tasks workers db now cache0).successful = succ ∧
    (allocateTasksOptimized tasks workers db now cache0).proposed = prop.allocations ∧
    (allocateTasksOptimized tasks workers db now cache0).finalDb = committed.2 ∧
    (allocateTasksOptimized tasks workers db now cache0).result.allocated = succ.length ∧
    (allocateTasksOptimized tasks workers db now cache0).result.allocationFailed =
      prop.allocationFailedCount + (prop.allocations.length - succ.length) ∧
    (allocateTasksOptimized tasks workers db now cache0).result.avgDistance =
      calculateAverageDistance (if 0 < succ.length then succ else prop.allocations) := by
  unfold allocateTasksOptimized
  rw [if_neg hne]
  simp only [hprop, hcom, hsucc]
  refine ⟨?_, ?_, ?_, ?_, ?_, ?_⟩ <;> trivial

/-- Query evaluation over a single-worker index when the worker's cell is
searched and its distance is within the radius. -/
theorem findNearbyWorkers_single_hit (w : Worker) (lat lon : ℚ)
    (hw : w.lat ≠ 0 ∧ w.lon ≠ 0)
    (hmem : getGridKey w.lat w.lon ∈ getSearchCells lat lon (10 / 111 : ℚ))
    (hdist : haversineDistance ((lat : ℚ) : ℝ) ((lon : ℚ) : ℝ) ((w.lat : ℚ) : ℝ)
      ((w.lon : ℚ) : ℝ) ≤ ((10 : ℚ) : ℝ)) :
    findNearbyWorkers (buildSpatialIndex [w]) lat lon 10 =
      [{ id := w.id, lat := w.lat, lon := w.lon, data := w }] := by
  unfold findNearbyWorkers
  rw [spatialCandidates_single w hw lat lon 10, if_pos hmem, distFilter]
  rw [if_pos hdist, distFilter]

/-- Selection over a single candidate below the cap: it is chosen. -/
theorem selectBest_single (wp : WorkerPoint) (counts : String → ℕ) (task : TaskRow)
    (h : counts wp.data.id < MAX_TASKS_PER_WORKER) :
    selectBestWorkerOptimized [wp] counts task =
      some (wp.data, workerPointDistance task wp) := by
  unfold selectBestWorkerOptimized
  rw [List.foldl_cons,
    selectStep_update task counts { best := none, bestScore := -1 } wp h
      (candScore_pos task counts wp h), List.foldl_nil]

/-- Full evaluation of one proposal step when the query returns exactly
one worker that is below the load cap: the task is proposed to it. -/
theorem proposeStep_eval_hit (idx : SIndex) (counts : String → ℕ) (st : ProposeState)
    (task : TaskRow) (x y : ℚ) (w : Worker)
    (hlat : task.lat = some x) (hlon : task.lon = some y) (hx : ¬x = 0) (hy : ¬y = 0)
    (hnear : findNearbyWorkers idx x y MAX_ALLOCATION_RADIUS =
      [{ id := w.id, lat := w.lat, lon := w.lon, data := w }])
    (hcnt : counts w.id < MAX_TASKS_PER_WORKER) :
    proposeStep idx counts st task =
      { allocations := st.allocations ++
          [{ taskId := task.id, workerId := w.id,
             distance := workerPointDistance task { data := w, distance := none } }],
        allocationFailedCount := st.allocationFailedCount,
        queried := st.queried ++ [task.id] } := by
  rw [proposeStep_truthy idx counts st task x y hlat hlon hx hy]
  simp only [hnear, List.map_cons, List.map_nil, List.length_cons, List.length_nil]
  rw [if_neg (by simp)]
  rw [selectBest_single { data := w, distance := none } counts task hcnt]

/-! ## Claim C1: capacity after commit -/

/-- Worker at (10, 10) with 49 active tasks in the table below. -/
def wC : Worker := { id := "w1", lat := 10, lon := 10 }

/-- First fetched task, at the worker's location. -/
def tC1 : TaskRow :=
  { id := "t1", lat := some 10, lon := some 10, status := .unassigned,
    assignedUserId := none, assignedAt := none, geocodePending := false }

/-- Second fetched task, same location. -/
def tC2 : TaskRow :=
  { id := "t2", lat := some 10, lon := some 10, status := .unassigned,
    assignedUserId := none, assignedAt := none, geocodePending := false }

/-- An already-active task of the worker (status `assigned`). -/
def fillerRow : TaskRow :=
  { id := "f", lat := none, lon := none, status := .assigned,
    assignedUserId := some "w1", assignedAt := none, geocodePending := false }

/-- Task table: the two fetched tasks plus 49 active tasks of `w1`. -/
def dbC : List TaskRow := tC1 :: tC2 :: List.replicate 49 fillerRow

/-- A healthy cache store. -/
def cacheOK : CacheState := { tick := 0, oracle := fun _ => true }

/-- The allocation proposed for `t1`. -/
noncomputable def aC1 : Allocation :=
  { taskId := "t1", workerId := wC.id,
    distance := workerPointDistance tC1 { data := wC, distance := none } }

/-- The allocation proposed for `t2`. -/
noncomputable def aC2 : Allocation :=
  { taskId := "t2", workerId := wC.id,
    distance := workerPointDistance tC2 { data := wC, distance := none } }

theorem getGridKey_10 : getGridKey (10 : ℚ) 10 = (1000, 1000) := by
  unfold getGridKey GRID_SIZE
  rw [show (10:ℚ) / (1/100) = 1000 by norm_num]
  norm_num

theorem cell10_mem : getGridKey wC.lat wC.lon ∈ getSearchCells 10 10 (10 / 111 : ℚ) := by
  have h : getGridKey wC.lat wC.lon = (1000, 1000) := getGridKey_10
  rw [h, getSearchCells_mem, searchCeil_10,
    show (⌊(10:ℚ) / GRID_SIZE⌋ : ℤ) = 1000 by
      unfold GRID_SIZE
      rw [show (10:ℚ) / (1/100) = 1000 by norm_num]
      norm_num]
  norm_num

theorem havC_le :
    haversineDistance ((10 : ℚ) : ℝ) ((10 : ℚ) : ℝ) ((wC.lat : ℚ) : ℝ) ((wC.lon : ℚ) : ℝ) ≤
      ((10 : ℚ) : ℝ) := by
  show haversineDistance ((10 : ℚ) : ℝ) ((10 : ℚ) : ℝ) ((10 : ℚ) : ℝ) ((10 : ℚ) : ℝ) ≤
    ((10 : ℚ) : ℝ)
  rw [haversineDistance_self]
  push_cast
  norm_num

theorem hnearC :
    findNearbyWorkers (buildSpatialIndex [wC]) 10 10 MAX_ALLOCATION_RADIUS =
      [{ id := wC.id, lat := wC.lat, lon := wC.lon, data := wC }] :=
  findNearbyWorkers_single_hit wC 10 10 (by constructor <;> norm_num [wC]) cell10_mem havC_le

theorem hcntC :
    getWorkerTaskCountsBatch (List.map (fun w => w.id) [wC]) dbC wC.id <
      MAX_TASKS_PER_WORKER := by
  decide

theorem propC_eval :
    proposeAllocations (buildSpatialIndex [wC])
      (getWorkerTaskCountsBatch (List.map (fun w => w.id) [wC]) dbC) [tC1, tC2] =
      { allocations := [aC1, aC2], allocationFailedCount := 0, queried := ["t1", "t2"] } := by
  unfold proposeAllocations
  rw [List.foldl_cons,
    proposeStep_eval_hit _ _ _ tC1 10 10 wC rfl rfl (by norm_num) (by norm_num) hnearC hcntC,
    List.foldl_cons,
    proposeStep_eval_hit _ _ _ tC2 10 10 wC rfl rfl (by norm_num) (by norm_num) hnearC hcntC,
    List.foldl_nil]
  rfl

theorem bulkC_eval :
    bulkUpdateTaskAllocations 0 [aC1, aC2] dbC =
      (["t1", "t2"], dbC.map (bulkSpecRow 0 [aC1, aC2])) := by
  unfold bulkUpdateTaskAllocations
  rw [bulkUpdate_char 0 [aC1, aC2] [] dbC (by decide)]
  have hp1 : taskUnassignedIn dbC aC1.taskId = true := by decide
  have hp2 : taskUnassignedIn dbC aC2.taskId = true := by decide
  have hfilt : List.filter (fun a => taskUnassignedIn dbC a.taskId) [aC1, aC2] = [aC1, aC2] := by
    simp only [List.filter_cons, hp1, hp2, if_true, List.filter_nil]
  rw [hfilt]
  rfl

theorem succC_eval :
    (["t1", "t2"] : List String).filterMap (allocationLookup [aC1, aC2]) = [aC1, aC2] := by
  have hrev : ([aC1, aC2] : List Allocation).reverse = [aC2, aC1] := by simp
  have h1 : allocationLookup [aC1, aC2] "t1" = some aC1 := by
    unfold allocationLookup
    rw [hrev, List.find?_cons_of_neg _ (by decide), List.find?_cons_of_pos _ (by decide)]
  have h2 : allocationLookup [aC1, aC2] "t2" = some aC2 := by
    unfold allocationLookup
    rw [hrev, List.find?_cons_of_pos _ (by decide)]
  simp [List.filterMap_cons, h1, h2]

theorem countC :
    countActive (dbC.map (bulkSpecRow 0 [aC1, aC2])) "w1" = 51 := by decide

/-- A selected best worker was below the load cap: the fold only ever
stores candidates that pass the `>= MAX_TASKS_PER_WORKER` skip. -/
theorem selectBestWorkerOptimized_count_lt (l : List WorkerPoint) (counts : String → ℕ)
    (task : TaskRow) (w : Worker) (d : Option ℝ)
    (h : selectBestWorkerOptimized l counts task = some (w, d)) :
    counts w.id < MAX_TASKS_PER_WORKER := by
  unfold selectBestWorkerOptimized at h
  rcases selectFold_char task counts l { best := none, bestScore := -1 } with ⟨_, hfold⟩ |
    ⟨l1, wp, l2, _, hcnt, _, hfold, _, _⟩
  · rw [hfold] at h
    exact absurd h (by simp)
  · rw [hfold] at h
    simp only [Option.some.injEq, Prod.mk.injEq] at h
    exact h.1 ▸ hcnt

/-- Every allocation produced by the proposal loop targets a worker whose
snapshot count is below the cap (or was already in the initial state). -/
theorem proposeLoop_counts_lt (idx : SIndex) (counts : String → ℕ) :
    ∀ (tasks : List TaskRow) (st : ProposeState) (a : Allocation),
    a ∈ (tasks.foldl (proposeStep idx counts) st).allocations →
    a ∈ st.allocations ∨ counts a.workerId < MAX_TASKS_PER_WORKER := by
  intro tasks
  induction tasks with
  | nil =>
    intro st a ha
    exact Or.inl ha
  | cons t rest ih =>
    intro st a ha
    rw [List.foldl_cons] at ha
    rcases ih (proposeStep idx counts st t) a ha with hmem | hlt
    · rcases proposeStep_allocations idx counts st t with heq |
        ⟨x, y, w, d, _, _, _, _, hsel, heq⟩
      · rw [heq] at hmem
        exact Or.inl hmem
      · rw [heq] at hmem
        rcases List.mem_append.mp hmem with h1 | h1
        · exact Or.inl h1
        · right
          have ha2 : a = { taskId := t.id, workerId := w.id, distance := d } := by
            simpa using h1
          rw [ha2]
          exact selectBestWorkerOptimized_count_lt _ counts t w d hsel
    · exact Or.inr hlt

/-- Evaluation of the full allocation run on the capacity scenario: both
fetched tasks are proposed to and committed on worker `w1`. -/
theorem runC_eval :
    (allocateTasksOptimized [tC1, tC2] [wC] dbC 0 cacheOK).successful = [aC1, aC2] ∧
    (allocateTasksOptimized [tC1, tC2] [wC] dbC 0 cacheOK).result.allocated = 2 ∧
    (allocateTasksOptimized [tC1, tC2] [wC] dbC 0 cacheOK).finalDb =
      dbC.map (bulkSpecRow 0 [aC1, aC2]) := by
  have hmain := allocateTasksOptimized_main [tC1, tC2] [wC] dbC 0 cacheOK (by decide)
    { allocations := [aC1, aC2], allocationFailedCount := 0, queried := ["t1", "t2"] }
    propC_eval
    (["t1", "t2"], dbC.map (bulkSpecRow 0 [aC1, aC2]))
    (by rw [if_pos (by simp)]; exact bulkC_eval)
    [aC1, aC2] succC_eval
  obtain ⟨h1, _, h3, h4, _, _⟩ := hmain
  refine ⟨h1, ?_, h3⟩
  rw [h4]
  simp

/-- C1 counterexample: the capacity invariant is violated after commit.
Worker `w1` has 49 active tasks in the snapshot (below the cap of 50), so
the proposal loop — which checks each task against the same unchanged
snapshot count (the source defers incrementing `workerTaskCounts` and
never does it) — proposes both fetched tasks to `w1`; both commit, and
`w1` ends the run with 51 active tasks, exceeding `MAX_TASKS_PER_WORKER`. -/
theorem allocateTasksOptimized_exceeds_cap :
    MAX_TASKS_PER_WORKER = 50 ∧
    countActive dbC wC.id = 49 ∧
    (allocateTasksOptimized [tC1, tC2] [wC] dbC 0 cacheOK).successful = [aC1, aC2] ∧
    aC1.workerId = wC.id ∧ aC2.workerId = wC.id ∧
    countActive (allocateTasksOptimized [tC1, tC2] [wC] dbC 0 cacheOK).finalDb wC.id = 51 := by
  obtain ⟨h1, _, h3⟩ := runC_eval
  refine ⟨rfl, by decide, h1, rfl, rfl, ?_⟩
  rw [h3]
  exact countC

/-- C1 (amended): the cap is enforced only against the pre-loop snapshot
counts — every allocation the run commits targets a worker whose
active-task count taken before the proposal loop was strictly below
`MAX_TASKS_PER_WORKER`; the count after commit may exceed the cap when
several tasks of one batch go to the same worker. -/
theorem allocate_successful_below_cap (tasks : List TaskRow) (workers : List Worker)
    (db : List TaskRow) (now : ℕ) (cache0 : CacheState) (a : Allocation)
    (ha : a ∈ (allocateTasksOptimized tasks workers db now cache0).successful) :
    getWorkerTaskCountsBatch (workers.map fun w => w.id) db a.workerId <
      MAX_TASKS_PER_WORKER := by
  by_cases hne : tasks.length = 0 ∨ workers.length = 0
  · unfold allocateTasksOptimized at ha
    rw [if_pos hne] at ha
    exact absurd ha (by simp)
  · unfold allocateTasksOptimized at ha
    rw [if_neg hne] at ha
    have hprop : a ∈ (proposeAllocations (buildSpatialIndex workers)
        (getWorkerTaskCountsBatch (workers.map fun w => w.id) db) tasks).allocations :=
      mem_of_filterMap_lookup _ _ a ha
    rcases proposeLoop_counts_lt (buildSpatialIndex workers)
      (getWorkerTaskCountsBatch (List.map (fun w : Worker => w.id) workers) db) tasks
      { allocations := [], allocationFailedCount := 0, queried := [] } a hprop with h | h
    · exact absurd h (by simp)
    · exact h

/-- Witness for the amended capacity statement on the concrete run: `aC1`
is committed and `w1`'s snapshot count 49 is below the cap. -/
theorem allocate_successful_below_cap_witness :
    aC1 ∈ (allocateTasksOptimized [tC1, tC2] [wC] dbC 0 cacheOK).successful ∧
    getWorkerTaskCountsBatch (List.map (fun w => w.id) [wC]) dbC aC1.workerId <
      MAX_TASKS_PER_WORKER := by
  have hmem : aC1 ∈ (allocateTasksOptimized [tC1, tC2] [wC] dbC 0 cacheOK).successful := by
    rw [runC_eval.1]
    simp
  exact ⟨hmem, allocate_successful_below_cap [tC1, tC2] [wC] dbC 0 cacheOK aC1 hmem⟩

/-! ## Claim C2: post-commit bookkeeping and the committed subset -/

/-- Fetched task at (0.05, 1), unassigned in the fetch snapshot. -/
def tL : TaskRow :=
  { id := "t1", lat := some (1/20), lon := some 1, status := .unassigned,
    assignedUserId := none, assignedAt := none, geocodePending := false }

/-- Worker 0.05° of latitude away from `tL`. -/
def wL : Worker := { id := "wL", lat := 1/10, lon := 1 }

/-- The same task row at commit time: a concurrent writer has already
assigned it, so the guarded update affects zero rows. -/
def tLtaken : TaskRow :=
  { id := "t1", lat := some (1/20), lon := some 1, status := .assigned,
    assignedUserId := some "other", assignedAt := none, geocodePending := false }

/-- Commit-time task table. -/
def dbL : List TaskRow := [tLtaken]

/-- The proposal the loop produces for `tL`. -/
noncomputable def aL : Allocation :=
  { taskId := "t1", workerId := wL.id,
    distance := workerPointDistance tL { data := wL, distance := none } }

theorem getGridKey_wL : getGridKey wL.lat wL.lon = (10, 100) := by
  show getGridKey (1/10 : ℚ) 1 = (10, 100)
  unfold getGridKey GRID_SIZE
  rw [show (1/10 : ℚ) / (1/100) = 10 by norm_num,
    show (1 : ℚ) / (1/100) = 100 by norm_num]
  norm_num

theorem cellL_mem : getGridKey wL.lat wL.lon ∈ getSearchCells (1/20) 1 (10 / 111 : ℚ) := by
  rw [getGridKey_wL, getSearchCells_mem, searchCeil_10,
    show (⌊(1/20 : ℚ) / GRID_SIZE⌋ : ℤ) = 5 by
      unfold GRID_SIZE
      rw [show (1/20 : ℚ) / (1/100) = 5 by norm_num]
      norm_num,
    show (⌊(1 : ℚ) / GRID_SIZE⌋ : ℤ) = 100 by
      unfold GRID_SIZE
      rw [show (1 : ℚ) / (1/100) = 100 by norm_num]
      norm_num]
  norm_num

theorem havL_le :
    haversineDistance (((1/20 : ℚ)) : ℝ) (((1 : ℚ)) : ℝ) ((wL.lat : ℚ) : ℝ)
      ((wL.lon : ℚ) : ℝ) ≤ ((10 : ℚ) : ℝ) := by
  have e : haversineDistance (((1/20 : ℚ)) : ℝ) (((1 : ℚ)) : ℝ) ((wL.lat : ℚ) : ℝ)
      ((wL.lon : ℚ) : ℝ) = haversineDistance (1/20 : ℝ) 1 (1/10) 1 := by
    show haversineDistance (((1/20 : ℚ)) : ℝ) (((1 : ℚ)) : ℝ) (((1/10 : ℚ)) : ℝ)
      (((1 : ℚ)) : ℝ) = _
    norm_num
  rw [e, haversineDistance_latStep, show ((10 : ℚ) : ℝ) = (10 : ℝ) by norm_num]
  exact haversineDistance_latStep_le10

theorem hnearL :
    findNearbyWorkers (buildSpatialIndex [wL]) (1/20) 1 MAX_ALLOCATION_RADIUS =
      [{ id := wL.id, lat := wL.lat, lon := wL.lon, data := wL }] :=
  findNearbyWorkers_single_hit wL (1/20) 1 (by constructor <;> norm_num [wL]) cellL_mem havL_le

theorem propL_eval :
    proposeAllocations (buildSpatialIndex [wL])
      (getWorkerTaskCountsBatch (List.map (fun w => w.id) [wL]) dbL) [tL] =
      { allocations := [aL], allocationFailedCount := 0, queried := ["t1"] } := by
  unfold proposeAllocations
  rw [List.foldl_cons,
    proposeStep_eval_hit _ _ _ tL (1/20) 1 wL rfl rfl (by norm_num) (by norm_num) hnearL
      (by decide),
    List.foldl_nil]
  rfl

theorem bulkL_eval : bulkUpdateTaskAllocations 0 [aL] dbL = ([], dbL) := by
  unfold bulkUpdateTaskAllocations
  rw [bulkUpdate_char 0 [aL] [] dbL (by decide)]
  have hp : taskUnassignedIn dbL aL.taskId = false := by decide
  have hfilt : List.filter (fun a => taskUnassignedIn dbL a.taskId) [aL] = [] := by
    simp [List.filter_cons, hp]
  have hrow : bulkSpecRow 0 [aL] tLtaken = tLtaken := by
    unfold bulkSpecRow
    rw [List.find?_cons_of_pos _ (by decide)]
    simp [tLtaken]
  rw [hfilt]
  simp [dbL, hrow]

theorem avgAccum_cons (a : Allocation) (rest : List Allocation) :
    avgAccum (a :: rest) =
      match a.distance with
      | some d => if 0 ≤ d then ((avgAccum rest).1 + d, (avgAccum rest).2 + 1)
                  else avgAccum rest
      | none => avgAccum rest := rfl

/-- The proposed distance of `aL` is the exact pure-latitude haversine. -/
theorem aL_distance : aL.distance = some (6371 * Real.pi / 3600) := by
  have h0 : aL.distance =
      some (haversineDistance (((1/20 : ℚ)) : ℝ) (((1 : ℚ)) : ℝ) (((1/10 : ℚ)) : ℝ)
        (((1 : ℚ)) : ℝ)) := rfl
  rw [h0, show haversineDistance (((1/20 : ℚ)) : ℝ) (((1 : ℚ)) : ℝ) (((1/10 : ℚ)) : ℝ)
      (((1 : ℚ)) : ℝ) = haversineDistance (1/20 : ℝ) 1 (1/10) 1 by norm_num,
    haversineDistance_latStep]

theorem avgL : calculateAverageDistance [aL] = 6371 * Real.pi / 3600 := by
  have hacc : avgAccum [aL] = (6371 * Real.pi / 3600, 1) := by
    rw [avgAccum_cons, aL_distance]
    simp only []
    rw [if_pos haversineDistance_latStep_pos.le]
    norm_num [avgAccum]
  unfold calculateAverageDistance
  rw [if_neg (by simp)]
  simp only [hacc]
  norm_num

/-- C2: the claim fails on the average-distance metric.  On a run where a
concurrent writer claims the only fetched task between fetch and commit,
zero proposed allocations commit; the committed subset is empty and
`calculateAverageDistance` of an empty list is 0, yet the run reports the
nonzero average distance of the *proposed* list — the reported
`avgDistance` falls back to the proposed allocations whenever the
committed subset is empty, so it is not derived only from the committed
subset. -/
theorem allocateTasksOptimized_avgDistance_from_proposed :
    (allocateTasksOptimized [tL] [wL] dbL 0 cacheOK).successful = [] ∧
    (allocateTasksOptimized [tL] [wL] dbL 0 cacheOK).result.allocated = 0 ∧
    calculateAverageDistance [] = 0 ∧
    (allocateTasksOptimized [tL] [wL] dbL 0 cacheOK).result.avgDistance =
      6371 * Real.pi / 3600 ∧
    (allocateTasksOptimized [tL] [wL] dbL 0 cacheOK).result.avgDistance ≠ 0 := by
  have hmain := allocateTasksOptimized_main [tL] [wL] dbL 0 cacheOK (by decide)
    { allocations := [aL], allocationFailedCount := 0, queried := ["t1"] } propL_eval
    ([], dbL) (by rw [if_pos (by simp)]; exact bulkL_eval) [] rfl
  obtain ⟨h1, _, _, h4, _, h6⟩ := hmain
  have havg2 : (allocateTasksOptimized [tL] [wL] dbL 0 cacheOK).result.avgDistance =
      6371 * Real.pi / 3600 := by
    rw [h6, if_neg (by simp)]
    exact avgL
  refine ⟨h1, ?_, ?_, havg2, ?_⟩
  · rw [h4]
    rfl
  · unfold calculateAverageDistance
    simp
  · rw [havg2]
    exact haversineDistance_latStep_pos.ne'
